import Mathlib

/-!
Verification development for the airport mediator simulation.

The source program coordinates aircraft (units), airstrips (single-occupancy
slots) and garages (unbounded pools) through a central mediator.  We embed the
mutable object graph as an explicit `AirportState`: aircraft are referenced by
their index into `AirportState.aircrafts`, airstrips store the index of their
occupant (or `none`), and garages store the ordered list of placed aircraft.
Python runtime errors (the `AttributeError` raised by reading a method off a
`None` occupant, the `AttributeError` latent in `Mediator.notify` for aircraft
senders, and the `ValueError` raised by `min` over an empty garage list) are
embedded as `Except` errors.  Console output is embedded as a list of `Output`
events so that claims about which call sites emit messages can be settled.
-/

namespace Airport

/-- Flag state of one aircraft: `isLanded` and `isMovedToGarage` mirror the
`_is_landed` and `_is_moved_to_garage` fields, and `hasMediator` records
whether `_mediator` is a `Mediator` instance (set only by `set_mediator`). -/
structure Aircraft where
  isLanded : Bool
  isMovedToGarage : Bool
  hasMediator : Bool
  deriving DecidableEq

/-- Events passed to `Aircraft.notify`; the source uses the strings
`"landed"` and `"moved_to_garage"`. -/
inductive AEvent where
  | landedEv
  | movedToGarageEv
  | otherEv
  deriving DecidableEq

/-- Console messages printed by the program, abstracted from their text. -/
inductive Output where
  | landingMsg (a : Nat) (line : Nat)
  | parkedMsg (a : Nat) (garageNumber : Nat)
  | noSeatsMsg (a : Nat)
  | freeStripMsg (line : Nat)
  deriving DecidableEq

/-- Python runtime errors reachable in the embedded fragment. -/
inductive Err where
  | attrNoneOccupant
  | attrGetLineNumber
  | attrGetNumber
  | valueEmptyMin
  deriving DecidableEq

/-- One airstrip: its `_line_number`, whether a mediator is registered, and
the index of the aircraft currently assigned to it (if any). -/
structure Airstrip where
  lineNumber : Nat
  hasMediator : Bool
  aircraft : Option Nat
  deriving DecidableEq

/-- One garage: its `_number`, whether a mediator is registered, and the
append-ordered list of aircraft indices placed into it. -/
structure Garage where
  number : Nat
  hasMediator : Bool
  aircrafts : List Nat
  deriving DecidableEq

/-- The whole mutable object graph owned by the simulation. -/
structure AirportState where
  aircrafts : List Aircraft
  airstrips : List Airstrip
  garages : List Garage
  deriving DecidableEq

instance : Inhabited Aircraft := ⟨⟨false, false, false⟩⟩

instance : Inhabited Airstrip := ⟨⟨0, false, none⟩⟩

instance : Inhabited Garage := ⟨⟨0, false, []⟩⟩

/-- Aircraft record referenced by index `a`. -/
def aircraftAt (st : AirportState) (a : Nat) : Aircraft :=
  st.aircrafts.getD a default

/-- Reading `is_landed` of aircraft `a`. -/
def landedAt (st : AirportState) (a : Nat) : Bool :=
  (aircraftAt st a).isLanded

/-- Reading `is_moved_to_garage` of aircraft `a`. -/
def parkedAt (st : AirportState) (a : Nat) : Bool :=
  (aircraftAt st a).isMovedToGarage

/-- Occupant of airstrip `i` (`Airstrip.get_aircraft`). -/
def occ (st : AirportState) (i : Nat) : Option Nat :=
  (st.airstrips.getD i default).aircraft

/-- Number of aircraft placed in garage `g`
(`len(garage.get_placed_aircrafts())`). -/
def garCount (st : AirportState) (g : Nat) : Nat :=
  (st.garages.getD g default).aircrafts.length

/-- Embedding of `Aircraft.notify`.  When no mediator is registered the call
is a no-op.  When a mediator is registered, `Mediator.notify` dispatches on
the event and reads `get_line_number` (resp. `get_number`) off the aircraft
sender, a method `Aircraft` does not define, raising `AttributeError`. -/
def Aircraft.notify (a : Aircraft) (e : AEvent) : Except Err (Aircraft × List Output) :=
  if a.hasMediator then
    match e with
    | AEvent.landedEv => Except.error Err.attrGetLineNumber
    | AEvent.movedToGarageEv => Except.error Err.attrGetNumber
    | AEvent.otherEv => Except.ok (a, [])
  else Except.ok (a, [])

/-- Index of the first airstrip whose occupant is `None`, mirroring the scan
order of the loop in `Mediator.request_land`. -/
def firstFreeIdx : List Airstrip → Option Nat
  | [] => none
  | s :: t =>
    match s.aircraft with
    | none => some 0
    | some _ => (firstFreeIdx t).map (fun j => j + 1)

/-- Embedding of `Mediator.request_land`: scan airstrips in index order, skip
occupied ones, and at the first free airstrip display the landing message,
assign the aircraft, mark it landed, run `aircraft.notify("landed")` and
return `True`; return `False` when every airstrip is occupied. -/
def request_land (st : AirportState) (a : Nat) :
    Except Err (AirportState × Bool × List Output) :=
  match firstFreeIdx st.airstrips with
  | none => Except.ok (st, false, [])
  | some i =>
    let strip := st.airstrips.getD i default
    let st1 : AirportState :=
      { st with airstrips := st.airstrips.set i { strip with aircraft := some a } }
    let ac := aircraftAt st1 a
    let st2 : AirportState :=
      { st1 with aircrafts := st1.aircrafts.set a { ac with isLanded := true } }
    match Aircraft.notify (aircraftAt st2 a) AEvent.landedEv with
    | Except.error e => Except.error e
    | Except.ok pr =>
      Except.ok (st2, true, Output.landingMsg a strip.lineNumber :: pr.2)

/-- Embedding of `Garage.place`: refuse aircraft that are not landed, else
mark the aircraft moved to garage and append it to the garage's list.  The
`notify` issued by the garage matches no branch of `Mediator.notify`, so it
neither changes state nor prints. -/
def Garage.place (st : AirportState) (g a : Nat) : AirportState × Bool :=
  if (aircraftAt st a).isLanded = false then (st, false)
  else
    let st1 : AirportState :=
      { st with aircrafts := st.aircrafts.set a { aircraftAt st a with isMovedToGarage := true } }
    let gar := st1.garages.getD g default
    let st2 : AirportState :=
      { st1 with garages := st1.garages.set g { gar with aircrafts := gar.aircrafts ++ [a] } }
    (st2, true)

/-- Embedding of `Airstrip.unset_aircraft`: clear the occupant and, when a
mediator is registered on the airstrip, print the freed-airstrip message. -/
def unset_aircraft (st : AirportState) (i : Nat) : AirportState × List Output :=
  let strip := st.airstrips.getD i default
  let st1 : AirportState :=
    { st with airstrips := st.airstrips.set i { strip with aircraft := none } }
  (st1, if strip.hasMediator then [Output.freeStripMsg strip.lineNumber] else [])

/-- Index of the garage chosen by `min(self._garages, key=len(...))`: the
first garage attaining the minimum occupant count; `none` on an empty list
(where Python raises `ValueError`). -/
def minGarageIdx : List Garage → Option Nat
  | [] => none
  | g :: t =>
    match minGarageIdx t with
    | none => some 0
    | some j =>
      if (t.getD j default).aircrafts.length < g.aircrafts.length then some (j + 1)
      else some 0

/-- Embedding of `Mediator.request_move_to_garage` with the result of
`randint(0, 9)` passed in as `draw`.  With an occupant and a zero draw the
first least-loaded garage is chosen, the parked message is displayed, the
aircraft is placed and the airstrip cleared; with a nonzero draw only the
no-seats message is displayed.  Without an occupant the `else` branch reads
`display_no_seats_message` off `None`, raising `AttributeError` (Python skips
the `randint` call there because `and` short-circuits). -/
def request_move_to_garage (st : AirportState) (i : Nat) (draw : Nat) :
    Except Err (AirportState × List Output) :=
  match occ st i with
  | some a =>
    if draw = 0 then
      match minGarageIdx st.garages with
      | none => Except.error Err.valueEmptyMin
      | some g =>
        let out := Output.parkedMsg a (st.garages.getD g default).number
        let p := Garage.place st g a
        let u := unset_aircraft p.1 i
        Except.ok (u.1, out :: u.2)
    else Except.ok (st, [Output.noSeatsMsg a])
  | none => Except.error Err.attrNoneOccupant

/-- Drain phase of one control-loop pass: for each airstrip index in order,
if the airstrip is occupied, invoke `request_move_to_garage` consuming the
next random draw `ds k`. -/
def drainAux (ds : Nat → Nat) : List Nat → AirportState → Nat →
    Except Err (AirportState × Nat)
  | [], st, k => Except.ok (st, k)
  | i :: rest, st, k =>
    match occ st i with
    | some _ =>
      match request_move_to_garage st i (ds k) with
      | Except.error e => Except.error e
      | Except.ok pr => drainAux ds rest pr.1 (k + 1)
    | none => drainAux ds rest st k

/-- Admission phase of one control-loop pass: for each aircraft in caller
order, if it is not landed, invoke `request_land`. -/
def landAux : List Nat → AirportState → Except Err AirportState
  | [], st => Except.ok st
  | a :: rest, st =>
    if landedAt st a then landAux rest st
    else
      match request_land st a with
      | Except.error e => Except.error e
      | Except.ok pr => landAux rest pr.1

/-- One pass of `Mediator.run_traffic_control`: drain phase over all
airstrips, then admission phase over the caller-supplied aircraft list.
Returns the new state and the new position in the random draw stream. -/
def runPass (st : AirportState) (units : List Nat) (ds : Nat → Nat) (k : Nat) :
    Except Err (AirportState × Nat) :=
  match drainAux ds (List.range st.airstrips.length) st k with
  | Except.error e => Except.error e
  | Except.ok pr =>
    match landAux units pr.1 with
    | Except.error e => Except.error e
    | Except.ok st2 => Except.ok (st2, pr.2)

/-- Loop guard of `run_traffic_control`: some aircraft in the list is not yet
moved to a garage. -/
def loopActive (st : AirportState) (units : List Nat) : Bool :=
  units.any (fun a => !parkedAt st a)

/-- Fuelled unfolding of the `while` loop of `run_traffic_control`.
`Except.ok none` means the loop was still running after `fuel` passes;
`Except.ok (some st)` means the guard became false and the loop returned. -/
def runLoop : Nat → AirportState → List Nat → (Nat → Nat) → Nat →
    Except Err (Option AirportState)
  | 0, st, units, _, _ =>
    if loopActive st units then Except.ok none else Except.ok (some st)
  | Nat.succ fuel, st, units, ds, k =>
    if loopActive st units then
      match runPass st units ds k with
      | Except.error e => Except.error e
      | Except.ok pr => runLoop fuel pr.1 units ds pr.2
    else Except.ok (some st)

/-- Coordinator-invoked operations, used to state properties of arbitrary
operation sequences. -/
inductive Op where
  | land (a : Nat)
  | move (i : Nat) (draw : Nat)
  | pass (ds : Nat → Nat) (k : Nat)

/-- Apply one coordinator operation to the state. -/
def applyOp (units : List Nat) (st : AirportState) : Op → Except Err AirportState
  | Op.land a =>
    match request_land st a with
    | Except.error e => Except.error e
    | Except.ok pr => Except.ok pr.1
  | Op.move i d =>
    match request_move_to_garage st i d with
    | Except.error e => Except.error e
    | Except.ok pr => Except.ok pr.1
  | Op.pass ds k =>
    match runPass st units ds k with
    | Except.error e => Except.error e
    | Except.ok pr => Except.ok pr.1

/-- Apply a sequence of coordinator operations from left to right. -/
def applyOps (units : List Nat) : List Op → AirportState → Except Err AirportState
  | [], st => Except.ok st
  | op :: rest, st =>
    match applyOp units st op with
    | Except.error e => Except.error e
    | Except.ok st1 => applyOps units rest st1

/-- Embedding of `Mediator.set_mediator_for_components`: registers the
mediator on every airstrip and every garage; aircraft records are not
touched. -/
def set_mediator_for_components (st : AirportState) : AirportState :=
  { st with
      airstrips := st.airstrips.map (fun s => { s with hasMediator := true }),
      garages := st.garages.map (fun g => { g with hasMediator := true }) }

/-- Fresh aircraft as constructed in `initialize_airport`: airborne, not in a
garage, `_mediator = None`. -/
def mkAircrafts (n : Nat) : List Aircraft :=
  List.replicate n default

/-- Fresh airstrips numbered from 1 as in `initialize_airport`. -/
def mkAirstrips (n : Nat) : List Airstrip :=
  (List.range n).map (fun i => ⟨i + 1, false, none⟩)

/-- Fresh garages numbered from 1 as in `initialize_airport`. -/
def mkGarages (n : Nat) : List Garage :=
  (List.range n).map (fun i => ⟨i + 1, false, []⟩)

/-- Object graph built by `initialize_airport` just after
`set_mediator_for_components`, before any landing request. -/
def setup_airport (airplaneCount helicopterCount airstripCount garageCount : Nat) :
    AirportState :=
  set_mediator_for_components
    { aircrafts := mkAircrafts (airplaneCount + helicopterCount),
      airstrips := mkAirstrips airstripCount,
      garages := mkGarages garageCount }

/-- Invariant: an aircraft moved to a garage is landed. -/
def ParkedImpliesLanded (st : AirportState) : Prop :=
  ∀ ac ∈ st.aircrafts, ac.isMovedToGarage = true → ac.isLanded = true

/-- Invariant: every airstrip occupant is landed. -/
def OccupantsLanded (st : AirportState) : Prop :=
  ∀ s ∈ st.airstrips, s.aircraft.all (fun o => landedAt st o) = true

/-- Invariant: no aircraft occupies two airstrips. -/
def OccupantsNodup (st : AirportState) : Prop :=
  (st.airstrips.filterMap Airstrip.aircraft).Nodup

/-- Invariant: a unit that is landed but not yet parked occupies an
airstrip. -/
def LandedOnSlot (st : AirportState) (units : List Nat) : Prop :=
  ∀ a ∈ units, landedAt st a = true → parkedAt st a = false →
    some a ∈ st.airstrips.map Airstrip.aircraft

/-- Invariant: every unit index refers to an actual aircraft record. -/
def UnitsValid (st : AirportState) (units : List Nat) : Prop :=
  ∀ a ∈ units, a < st.aircrafts.length

/-- Conjunction of the control-loop invariants; it holds for the states the
program actually runs the loop from and is preserved by every pass. -/
def GoodState (st : AirportState) (units : List Nat) : Prop :=
  ParkedImpliesLanded st ∧ OccupantsLanded st ∧ OccupantsNodup st ∧
    LandedOnSlot st units ∧ UnitsValid st units

instance (st : AirportState) : Decidable (ParkedImpliesLanded st) := by
  unfold ParkedImpliesLanded
  infer_instance

instance (st : AirportState) : Decidable (OccupantsLanded st) := by
  unfold OccupantsLanded
  infer_instance

instance (st : AirportState) : Decidable (OccupantsNodup st) := by
  unfold OccupantsNodup
  infer_instance

instance (st : AirportState) (units : List Nat) : Decidable (LandedOnSlot st units) := by
  unfold LandedOnSlot
  infer_instance

instance (st : AirportState) (units : List Nat) : Decidable (UnitsValid st units) := by
  unfold UnitsValid
  infer_instance

instance (st : AirportState) (units : List Nat) : Decidable (GoodState st units) := by
  unfold GoodState
  infer_instance

/-- Number of distinct units of the list not yet moved to a garage. -/
def unparkedCount (st : AirportState) (units : List Nat) : Nat :=
  units.dedup.countP (fun a => !parkedAt st a)

/-- An airstrip is stale when it is occupied by an aircraft outside the unit
list or by an already parked aircraft; such occupancies can only disappear. -/
def slotBad (st : AirportState) (units : List Nat) (s : Airstrip) : Bool :=
  match s.aircraft with
  | none => false
  | some o => !units.contains o || parkedAt st o

/-- Number of stale occupied airstrips. -/
def badOccCount (st : AirportState) (units : List Nat) : Nat :=
  st.airstrips.countP (slotBad st units)

/-- Termination measure for the control loop: it never increases during a
pass and strictly decreases at every successful drain. -/
def passMeasure (st : AirportState) (units : List Nat) : Nat :=
  unparkedCount st units + badOccCount st units

/-- State produced by a successful `request_land` of aircraft `a` on
airstrip `i`: the airstrip gets occupant `a` and the aircraft is marked
landed. -/
def landState (st : AirportState) (a i : Nat) : AirportState :=
  { st with
      airstrips := st.airstrips.set i
        { st.airstrips.getD i default with aircraft := some a },
      aircrafts := st.aircrafts.set a
        { aircraftAt st a with isLanded := true } }

/-- State produced by a successful `request_move_to_garage` of the occupant
`a` of airstrip `i` into garage `g`: the aircraft is marked moved to garage,
appended to garage `g`, and the airstrip is cleared. -/
def moveState (st : AirportState) (i a g : Nat) : AirportState :=
  { st with
      aircrafts := st.aircrafts.set a
        { aircraftAt st a with isMovedToGarage := true },
      garages := st.garages.set g
        { st.garages.getD g default with
            aircrafts := (st.garages.getD g default).aircrafts ++ [a] },
      airstrips := st.airstrips.set i
        { st.airstrips.getD i default with aircraft := none } }

/-- Concrete state: aircraft 1 landed and occupying airstrip 0, aircraft 0
airborne, airstrip 1 free. -/
def stW1 : AirportState :=
  { aircrafts := [⟨false, false, false⟩, ⟨true, false, false⟩],
    airstrips := [⟨1, false, some 1⟩, ⟨2, false, none⟩],
    garages := [⟨1, false, []⟩] }

/-- Concrete state: one landed aircraft occupying the only airstrip. -/
def stW2 : AirportState :=
  { aircrafts := [⟨true, false, false⟩],
    airstrips := [⟨1, true, some 0⟩],
    garages := [⟨7, false, []⟩] }

/-- Concrete state with no garages and an occupied airstrip. -/
def stW3 : AirportState :=
  { aircrafts := [⟨true, false, false⟩],
    airstrips := [⟨1, false, some 0⟩],
    garages := [] }

/-- Concrete state with two garages of occupant counts 1 and 0. -/
def stW4 : AirportState :=
  { aircrafts := [⟨true, false, false⟩, ⟨true, true, false⟩],
    airstrips := [⟨3, true, some 0⟩],
    garages := [⟨1, false, [1]⟩, ⟨2, false, []⟩] }

/-- Concrete state with one airborne aircraft and no airstrips at all. -/
def stW5 : AirportState :=
  { aircrafts := [⟨false, false, false⟩],
    airstrips := [],
    garages := [] }

/-- Concrete state with one airborne aircraft, one free airstrip and one
empty garage. -/
def stW6 : AirportState :=
  { aircrafts := [⟨false, false, false⟩],
    airstrips := [⟨1, false, none⟩],
    garages := [⟨1, false, []⟩] }

/-- Relation holding between a state and any state produced from it by one
coordinator operation: the per-aircraft flags only move from false to true,
mediator registration of aircraft is untouched, and the parked-implies-landed
invariant is preserved. -/
def MonoStep (st st' : AirportState) : Prop :=
  (∀ j, landedAt st j = true → landedAt st' j = true) ∧
  (∀ j, parkedAt st j = true → parkedAt st' j = true) ∧
  (∀ j, (aircraftAt st' j).hasMediator = (aircraftAt st j).hasMediator) ∧
  (ParkedImpliesLanded st → ParkedImpliesLanded st')

/-! ### List helper lemmas -/

theorem getD_set_self {α : Type _} :
    ∀ (l : List α) (i : Nat) (x d : α), i < l.length → (l.set i x).getD i d = x := by
  intro l
  induction l with
  | nil => intro i x d h; simp at h
  | cons a t ih =>
    intro i x d h
    cases i with
    | zero => rfl
    | succ n => exact ih n x d (Nat.lt_of_succ_lt_succ h)

theorem getD_set_other {α : Type _} :
    ∀ (l : List α) (i j : Nat) (x d : α), j ≠ i → (l.set i x).getD j d = l.getD j d := by
  intro l
  induction l with
  | nil => intro i j x d _; rfl
  | cons a t ih =>
    intro i j x d hne
    cases i with
    | zero =>
      cases j with
      | zero => exact absurd rfl hne
      | succ m => rfl
    | succ n =>
      cases j with
      | zero => rfl
      | succ m => exact ih n m x d (fun h => hne (by rw [h]))

theorem getD_ge {α : Type _} :
    ∀ (l : List α) (i : Nat) (d : α), l.length ≤ i → l.getD i d = d := by
  intro l
  induction l with
  | nil => intro i d _; cases i <;> rfl
  | cons a t ih =>
    intro i d h
    cases i with
    | zero => exact absurd h (by simp)
    | succ n => exact ih n d (Nat.le_of_succ_le_succ h)

theorem set_ge {α : Type _} :
    ∀ (l : List α) (i : Nat) (x : α), l.length ≤ i → l.set i x = l := by
  intro l
  induction l with
  | nil => intro i x _; rfl
  | cons a t ih =>
    intro i x h
    cases i with
    | zero => exact absurd h (by simp)
    | succ n => simp [List.set, ih n x (Nat.le_of_succ_le_succ h)]

theorem getD_map_lt {α β : Type _} :
    ∀ (l : List α) (f : α → β) (i : Nat) (d : α) (d' : β),
      i < l.length → (l.map f).getD i d' = f (l.getD i d) := by
  intro l
  induction l with
  | nil => intro f i d d' h; simp at h
  | cons a t ih =>
    intro f i d d' h
    cases i with
    | zero => rfl
    | succ n => exact ih f n d d' (Nat.lt_of_succ_lt_succ h)

theorem getD_mem {α : Type _} :
    ∀ (l : List α) (i : Nat) (d : α), i < l.length → l.getD i d ∈ l := by
  intro l
  induction l with
  | nil => intro i d h; simp at h
  | cons a t ih =>
    intro i d h
    cases i with
    | zero => exact List.mem_cons_self a t
    | succ n => exact List.mem_cons_of_mem a (ih n d (Nat.lt_of_succ_lt_succ h))

theorem countP_congr_mem {α : Type _} :
    ∀ (l : List α) (p q : α → Bool), (∀ a ∈ l, p a = q a) → l.countP p = l.countP q := by
  intro l
  induction l with
  | nil => intro p q _; rfl
  | cons a t ih =>
    intro p q h
    rw [List.countP_cons, List.countP_cons, h a (List.mem_cons_self a t),
      ih p q (fun b hb => h b (List.mem_cons_of_mem a hb))]

theorem countP_flip_nodup {α : Type _} [DecidableEq α] :
    ∀ (l : List α) (p q : α → Bool) (o : α), l.Nodup → o ∈ l →
      p o = true → q o = false → (∀ a ∈ l, a ≠ o → q a = p a) →
      l.countP q + 1 = l.countP p := by
  intro l
  induction l with
  | nil => intro p q o _ ho; simp at ho
  | cons a t ih =>
    intro p q o hnd ho hp hq hrest
    rw [List.countP_cons, List.countP_cons]
    rcases List.mem_cons.mp ho with rfl | hot
    · have hnt : o ∉ t := (List.nodup_cons.mp hnd).1
      have : t.countP q = t.countP p := by
        refine countP_congr_mem t q p (fun b hb => ?_)
        exact hrest b (List.mem_cons_of_mem o hb) (fun hbo => hnt (hbo ▸ hb))
      rw [this, hp, hq]
      simp
    · have hao : a ≠ o := by
        intro h
        exact (List.nodup_cons.mp hnd).1 (h ▸ hot)
      have hqa : q a = p a := hrest a (List.mem_cons_self a t) hao
      have := ih p q o (List.nodup_cons.mp hnd).2 hot hp hq
        (fun b hb hbo => hrest b (List.mem_cons_of_mem a hb) hbo)
      rw [hqa]
      omega

theorem take_getD_drop {α : Type _} :
    ∀ (l : List α) (i : Nat) (d : α), i < l.length →
      l = l.take i ++ l.getD i d :: l.drop (i + 1) := by
  intro l
  induction l with
  | nil => intro i d h; simp at h
  | cons a t ih =>
    intro i d h
    cases i with
    | zero => rfl
    | succ n =>
      have := ih n d (Nat.lt_of_succ_lt_succ h)
      simpa using congrArg (fun u => a :: u) this

theorem set_take_drop {α : Type _} :
    ∀ (l : List α) (i : Nat) (x : α), i < l.length →
      l.set i x = l.take i ++ x :: l.drop (i + 1) := by
  intro l
  induction l with
  | nil => intro i x h; simp at h
  | cons a t ih =>
    intro i x h
    cases i with
    | zero => rfl
    | succ n =>
      have := ih n x (Nat.lt_of_succ_lt_succ h)
      simpa [List.set] using congrArg (fun u => a :: u) this

theorem mem_set_elem {α : Type _} :
    ∀ (l : List α) (i : Nat) (x a : α), a ∈ l.set i x → a ∈ l ∨ a = x := by
  intro l
  induction l with
  | nil => intro i x a h; simp [List.set] at h
  | cons b t ih =>
    intro i x a h
    cases i with
    | zero =>
      rcases List.mem_cons.mp h with rfl | h2
      · exact Or.inr rfl
      · exact Or.inl (List.mem_cons_of_mem b h2)
    | succ n =>
      rcases List.mem_cons.mp h with rfl | h2
      · exact Or.inl (List.mem_cons_self a t)
      · rcases ih n x a h2 with h3 | h3
        · exact Or.inl (List.mem_cons_of_mem b h3)
        · exact Or.inr h3

theorem mem_map_iff_getD :
    ∀ (l : List Airstrip) (b : Nat),
      some b ∈ l.map Airstrip.aircraft ↔
        ∃ i, i < l.length ∧ (l.getD i default).aircraft = some b := by
  intro l
  induction l with
  | nil => intro b; simp
  | cons s t ih =>
    intro b
    constructor
    · intro h
      rcases List.mem_cons.mp h with h1 | h1
      · exact ⟨0, by simp, h1.symm⟩
      · rcases (ih b).mp h1 with ⟨i, hi, hocc⟩
        exact ⟨i + 1, by simpa using Nat.succ_lt_succ hi, hocc⟩
    · rintro ⟨i, hi, hocc⟩
      cases i with
      | zero => exact List.mem_cons.mpr (Or.inl hocc.symm)
      | succ n =>
        exact List.mem_cons.mpr
          (Or.inr ((ih b).mpr ⟨n, Nat.lt_of_succ_lt_succ hi, hocc⟩))

/-! ### Basic facts about the embedded operations -/

theorem pil_at {st : AirportState} (h : ParkedImpliesLanded st) :
    ∀ j, parkedAt st j = true → landedAt st j = true := by
  intro j hp
  rcases Nat.lt_or_ge j st.aircrafts.length with hj | hj
  · exact h _ (getD_mem st.aircrafts j default hj) hp
  · rw [parkedAt, aircraftAt, getD_ge st.aircrafts j default hj] at hp
    cases hp

theorem landed_lt {st : AirportState} {a : Nat} (h : landedAt st a = true) :
    a < st.aircrafts.length := by
  rcases Nat.lt_or_ge a st.aircrafts.length with hj | hj
  · exact hj
  · rw [landedAt, aircraftAt, getD_ge st.aircrafts a default hj] at h
    cases h

theorem occ_lt {st : AirportState} {i : Nat} {o : Nat} (h : occ st i = some o) :
    i < st.airstrips.length := by
  rcases Nat.lt_or_ge i st.airstrips.length with hj | hj
  · exact hj
  · rw [occ, getD_ge st.airstrips i default hj] at h
    cases h

theorem firstFreeIdx_spec :
    ∀ {l : List Airstrip} {i : Nat}, firstFreeIdx l = some i →
      i < l.length ∧ (l.getD i default).aircraft = none := by
  intro l
  induction l with
  | nil => intro i h; simp [firstFreeIdx] at h
  | cons s t ih =>
    intro i h
    unfold firstFreeIdx at h
    cases hs : s.aircraft with
    | none =>
      rw [hs] at h
      cases h
      exact ⟨Nat.succ_pos _, hs⟩
    | some o =>
      rw [hs] at h
      rcases Option.map_eq_some'.mp h with ⟨j, hj, rfl⟩
      rcases ih hj with ⟨h1, h2⟩
      exact ⟨Nat.succ_lt_succ h1, h2⟩

theorem firstFreeIdx_none_spec :
    ∀ {l : List Airstrip}, firstFreeIdx l = none →
      ∀ i, i < l.length → (l.getD i default).aircraft ≠ none := by
  intro l
  induction l with
  | nil => intro _ i hi; simp at hi
  | cons s t ih =>
    intro h i hi
    unfold firstFreeIdx at h
    cases hs : s.aircraft with
    | none => rw [hs] at h; cases h
    | some o =>
      rw [hs] at h
      cases i with
      | zero => simp [hs]
      | succ n =>
        have ht : firstFreeIdx t = none := by
          cases hft : firstFreeIdx t with
          | none => rfl
          | some j => rw [hft] at h; cases h
        exact ih ht n (Nat.lt_of_succ_lt_succ hi)

theorem firstFreeIdx_some_of :
    ∀ {l : List Airstrip} {i : Nat}, i < l.length →
      (l.getD i default).aircraft = none →
      (∀ j, j < i → (l.getD j default).aircraft ≠ none) →
      firstFreeIdx l = some i := by
  intro l
  induction l with
  | nil => intro i hi; simp at hi
  | cons s t ih =>
    intro i hi hfree hprev
    cases i with
    | zero =>
      have hs0 : s.aircraft = none := hfree
      simp [firstFreeIdx, hs0]
    | succ n =>
      have hs : s.aircraft ≠ none := hprev 0 (Nat.succ_pos n)
      cases hsv : s.aircraft with
      | none => exact absurd hsv hs
      | some o =>
        have := ih (Nat.lt_of_succ_lt_succ hi) hfree
          (fun j hj => hprev (j + 1) (Nat.succ_lt_succ hj))
        simp [firstFreeIdx, hsv, this]

theorem firstFreeIdx_none_of :
    ∀ {l : List Airstrip},
      (∀ i, i < l.length → (l.getD i default).aircraft ≠ none) →
      firstFreeIdx l = none := by
  intro l
  induction l with
  | nil => intro _; rfl
  | cons s t ih =>
    intro h
    have hs : s.aircraft ≠ none := h 0 (Nat.succ_pos _)
    cases hsv : s.aircraft with
    | none => exact absurd hsv hs
    | some o =>
      have := ih (fun i hi => h (i + 1) (Nat.succ_lt_succ hi))
      simp [firstFreeIdx, hsv, this]

theorem minGarageIdx_none_iff :
    ∀ (gs : List Garage), minGarageIdx gs = none ↔ gs = [] := by
  intro gs
  cases gs with
  | nil => simp [minGarageIdx]
  | cons g t =>
    constructor
    · intro h
      exfalso
      unfold minGarageIdx at h
      cases hmt : minGarageIdx t with
      | none => rw [hmt] at h; cases h
      | some jm =>
        rw [hmt] at h
        revert h
        show (if (t.getD jm default).aircrafts.length < g.aircrafts.length
          then some (jm + 1) else some 0) = none → False
        split <;> intro h <;> cases h
    · intro h
      cases h

theorem minGarageIdx_spec :
    ∀ {gs : List Garage}, gs ≠ [] →
      ∃ g, minGarageIdx gs = some g ∧ g < gs.length ∧
        (∀ j, j < gs.length →
          (gs.getD g default).aircrafts.length ≤ (gs.getD j default).aircrafts.length) ∧
        (∀ j, j < g →
          (gs.getD g default).aircrafts.length < (gs.getD j default).aircrafts.length) := by
  intro gs
  induction gs with
  | nil => intro h; exact absurd rfl h
  | cons g t ih =>
    intro _
    cases hmt : minGarageIdx t with
    | none =>
      have ht : t = [] := (minGarageIdx_none_iff t).mp hmt
      subst ht
      refine ⟨0, rfl, Nat.succ_pos _, ?_, ?_⟩
      · intro j hj
        cases j with
        | zero => exact Nat.le_refl _
        | succ n => exact absurd (Nat.lt_of_succ_lt_succ hj) (Nat.not_lt_zero n)
      · intro j hj
        cases hj
    | some jm =>
      have htne : t ≠ [] := by
        intro h
        rw [h] at hmt
        cases hmt
      rcases ih htne with ⟨j', hj', hlt, hmin, hstrict⟩
      have hjj : jm = j' := by
        rw [hj'] at hmt
        exact (Option.some.inj hmt).symm
      subst hjj
      by_cases hcmp : (t.getD jm default).aircrafts.length < g.aircrafts.length
      · refine ⟨jm + 1, ?_, Nat.succ_lt_succ hlt, ?_, ?_⟩
        · unfold minGarageIdx
          rw [hj']
          show (if (t.getD jm default).aircrafts.length < g.aircrafts.length
            then some (jm + 1) else some 0) = some (jm + 1)
          rw [if_pos hcmp]
        · intro i hi
          cases i with
          | zero => exact Nat.le_of_lt hcmp
          | succ n => exact hmin n (Nat.lt_of_succ_lt_succ hi)
        · intro i hi
          cases i with
          | zero => exact hcmp
          | succ n => exact hstrict n (Nat.lt_of_succ_lt_succ hi)
      · refine ⟨0, ?_, Nat.succ_pos _, ?_, ?_⟩
        · unfold minGarageIdx
          rw [hj']
          show (if (t.getD jm default).aircrafts.length < g.aircrafts.length
            then some (jm + 1) else some 0) = some 0
          rw [if_neg hcmp]
        · intro i hi
          cases i with
          | zero => exact Nat.le_refl _
          | succ n =>
            exact Nat.le_trans (Nat.le_of_not_lt hcmp) (hmin n (Nat.lt_of_succ_lt_succ hi))
        · intro i hi
          cases hi

/-! ### Evaluation lemmas for the embedded operations -/

theorem notify_unwired (a : Aircraft) (e : AEvent) (h : a.hasMediator = false) :
    Aircraft.notify a e = Except.ok (a, []) := by
  unfold Aircraft.notify
  rw [h]
  simp

theorem aircraftAt_landState (st : AirportState) (a i : Nat)
    (ha : a < st.aircrafts.length) :
    aircraftAt (landState st a i) a = { aircraftAt st a with isLanded := true } := by
  unfold landState aircraftAt
  exact getD_set_self _ _ _ _ ha

theorem request_land_eq_none (st : AirportState) (a : Nat)
    (hffi : firstFreeIdx st.airstrips = none) :
    request_land st a = Except.ok (st, false, []) := by
  unfold request_land
  rw [hffi]

theorem request_land_eval_some (st : AirportState) (a i : Nat)
    (hffi : firstFreeIdx st.airstrips = some i) :
    request_land st a =
      match Aircraft.notify (aircraftAt (landState st a i) a) AEvent.landedEv with
      | Except.error e => Except.error e
      | Except.ok pr => Except.ok (landState st a i, true,
          Output.landingMsg a (st.airstrips.getD i default).lineNumber :: pr.2) := by
  unfold request_land
  rw [hffi]
  rfl

theorem request_land_eq_some (st : AirportState) (a i : Nat)
    (hffi : firstFreeIdx st.airstrips = some i)
    (ha : a < st.aircrafts.length)
    (hm : (aircraftAt st a).hasMediator = false) :
    request_land st a = Except.ok (landState st a i, true,
      [Output.landingMsg a (st.airstrips.getD i default).lineNumber]) := by
  have hhm : (aircraftAt (landState st a i) a).hasMediator = false := by
    rw [aircraftAt_landState st a i ha]
    exact hm
  rw [request_land_eval_some st a i hffi, notify_unwired _ _ hhm]

theorem place_fail (st : AirportState) (g a : Nat)
    (hl : (aircraftAt st a).isLanded = false) :
    Garage.place st g a = (st, false) := by
  unfold Garage.place
  rw [hl]
  simp

theorem place_success (st : AirportState) (g a : Nat)
    (hl : (aircraftAt st a).isLanded = true) :
    Garage.place st g a =
      ({ st with
          aircrafts := st.aircrafts.set a
            { aircraftAt st a with isMovedToGarage := true },
          garages := st.garages.set g
            { st.garages.getD g default with
                aircrafts := (st.garages.getD g default).aircrafts ++ [a] } }, true) := by
  unfold Garage.place
  rw [hl]
  simp

theorem request_move_eval_occupied (st : AirportState) (i a : Nat)
    (ho : occ st i = some a) :
    request_move_to_garage st i 0 =
      match minGarageIdx st.garages with
      | none => Except.error Err.valueEmptyMin
      | some g0 =>
        Except.ok ((unset_aircraft (Garage.place st g0 a).1 i).1,
          Output.parkedMsg a (st.garages.getD g0 default).number ::
            (unset_aircraft (Garage.place st g0 a).1 i).2) := by
  unfold request_move_to_garage
  rw [ho]
  rfl

theorem request_move_eq_success (st : AirportState) (i a g : Nat)
    (ho : occ st i = some a)
    (hl : landedAt st a = true)
    (hming : minGarageIdx st.garages = some g) :
    request_move_to_garage st i 0 = Except.ok (moveState st i a g,
      Output.parkedMsg a (st.garages.getD g default).number ::
        (if (st.airstrips.getD i default).hasMediator
          then [Output.freeStripMsg (st.airstrips.getD i default).lineNumber]
          else [])) := by
  rw [request_move_eval_occupied st i a ho, hming]
  show Except.ok ((unset_aircraft (Garage.place st g a).1 i).1,
      Output.parkedMsg a (st.garages.getD g default).number ::
        (unset_aircraft (Garage.place st g a).1 i).2) = _
  rw [place_success st g a hl]
  rfl

theorem runPass_eval_drain_err (st : AirportState) (units : List Nat)
    (ds : Nat → Nat) (k : Nat) (e : Err)
    (hd : drainAux ds (List.range st.airstrips.length) st k = Except.error e) :
    runPass st units ds k = Except.error e := by
  unfold runPass
  rw [hd]

theorem runPass_eval_drain_ok (st : AirportState) (units : List Nat)
    (ds : Nat → Nat) (k : Nat) (pr : AirportState × Nat)
    (hd : drainAux ds (List.range st.airstrips.length) st k = Except.ok pr) :
    runPass st units ds k =
      match landAux units pr.1 with
      | Except.error e => Except.error e
      | Except.ok st2 => Except.ok (st2, pr.2) := by
  unfold runPass
  rw [hd]

/-! ### Claim theorems -/

/-- C1: `request_land` scans the airstrips in index order; with every slot
occupied it returns false and changes nothing, and otherwise it assigns the
first free slot (purely positional first-fit), marks the unit landed and
returns true immediately. -/
theorem request_land_first_fit (st : AirportState) (a : Nat)
    (ha : a < st.aircrafts.length)
    (hm : (aircraftAt st a).hasMediator = false) :
    ((∀ i, i < st.airstrips.length → occ st i ≠ none) →
      request_land st a = Except.ok (st, false, [])) ∧
    (∀ i, i < st.airstrips.length → occ st i = none →
      (∀ j, j < i → occ st j ≠ none) →
      request_land st a = Except.ok (landState st a i, true,
        [Output.landingMsg a (st.airstrips.getD i default).lineNumber])) := by
  constructor
  · intro h
    exact request_land_eq_none st a (firstFreeIdx_none_of h)
  · intro i hi hfree hprev
    exact request_land_eq_some st a i (firstFreeIdx_some_of hi hfree hprev) ha hm

theorem request_land_first_fit_witness :
    request_land stW1 0 = Except.ok (landState stW1 0 1, true,
      [Output.landingMsg 0 2]) :=
  (request_land_first_fit stW1 0 (by decide) (by decide)).2 1 (by decide) (by decide)
    (by decide)

/-- C3: `Garage.place` refuses a unit whose landed flag is false, returning
false with no state change; otherwise it marks the unit parked, appends it
to the garage occupants and returns true. -/
theorem pool_place_requires_landed (st : AirportState) (g a : Nat) :
    ((aircraftAt st a).isLanded = false → Garage.place st g a = (st, false)) ∧
    ((aircraftAt st a).isLanded = true →
      Garage.place st g a =
        ({ st with
            aircrafts := st.aircrafts.set a
              { aircraftAt st a with isMovedToGarage := true },
            garages := st.garages.set g
              { st.garages.getD g default with
                  aircrafts := (st.garages.getD g default).aircrafts ++ [a] } }, true)) :=
  ⟨place_fail st g a, place_success st g a⟩

theorem pool_place_requires_landed_witness :
    Garage.place stW1 0 0 = (stW1, false) ∧
    Garage.place stW1 0 1 =
      ({ stW1 with
          aircrafts := stW1.aircrafts.set 1
            { aircraftAt stW1 1 with isMovedToGarage := true },
          garages := stW1.garages.set 0
            { stW1.garages.getD 0 default with
                aircrafts := (stW1.garages.getD 0 default).aircrafts ++ [1] } }, true) :=
  ⟨(pool_place_requires_landed stW1 0 0).1 rfl,
    (pool_place_requires_landed stW1 0 1).2 rfl⟩

/-- C2: on an occupied slot whose draw succeeds, the mediator picks the
garage with the minimum occupant count, ties broken by the lowest index,
places the (landed) occupant there successfully, and clears the slot. -/
theorem move_to_garage_balances (st : AirportState) (i a : Nat)
    (ho : occ st i = some a) (hl : landedAt st a = true)
    (hg : st.garages ≠ []) :
    ∃ g, minGarageIdx st.garages = some g ∧ g < st.garages.length ∧
      (∀ j, j < st.garages.length → garCount st g ≤ garCount st j) ∧
      (∀ j, j < g → garCount st g < garCount st j) ∧
      (Garage.place st g a).2 = true ∧
      request_move_to_garage st i 0 = Except.ok (moveState st i a g,
        Output.parkedMsg a (st.garages.getD g default).number ::
          (if (st.airstrips.getD i default).hasMediator
            then [Output.freeStripMsg (st.airstrips.getD i default).lineNumber]
            else [])) := by
  rcases minGarageIdx_spec hg with ⟨g, hming, hlt, hmin, hstrict⟩
  exact ⟨g, hming, hlt, hmin, hstrict, by rw [place_success st g a hl],
    request_move_eq_success st i a g ho hl hming⟩

theorem move_to_garage_balances_witness :
    ∃ g, minGarageIdx stW4.garages = some g ∧ g < stW4.garages.length ∧
      (∀ j, j < stW4.garages.length → garCount stW4 g ≤ garCount stW4 j) ∧
      (∀ j, j < g → garCount stW4 g < garCount stW4 j) ∧
      (Garage.place stW4 g 0).2 = true ∧
      request_move_to_garage stW4 0 0 = Except.ok (moveState stW4 0 0 g,
        Output.parkedMsg 0 (stW4.garages.getD g default).number ::
          (if (stW4.airstrips.getD 0 default).hasMediator
            then [Output.freeStripMsg (stW4.airstrips.getD 0 default).lineNumber]
            else [])) :=
  move_to_garage_balances stW4 0 0 rfl rfl (by decide)

/-- C4: on an occupied slot whose draw fails (nonzero), the call returns
with the state exactly unchanged, emitting only the no-seats message. -/
theorem move_to_garage_failure_frame (st : AirportState) (i draw a : Nat)
    (ho : occ st i = some a) (hd : draw ≠ 0) :
    request_move_to_garage st i draw = Except.ok (st, [Output.noSeatsMsg a]) := by
  unfold request_move_to_garage
  rw [ho]
  cases draw with
  | zero => exact absurd rfl hd
  | succ n => rfl

theorem move_to_garage_failure_frame_witness :
    request_move_to_garage stW2 0 3 = Except.ok (stW2, [Output.noSeatsMsg 0]) :=
  move_to_garage_failure_frame stW2 0 3 0 rfl (by decide)

/-- C8: with zero garages configured, a successful draw on an occupied slot
reaches the error branch of the empty minimum (the Python `ValueError` from
`min` over an empty sequence) instead of completing normally. -/
theorem move_to_garage_empty_pools_error (st : AirportState) (i a : Nat)
    (hg : st.garages = []) (ho : occ st i = some a) :
    request_move_to_garage st i 0 = Except.error Err.valueEmptyMin := by
  have hming : minGarageIdx st.garages = none := (minGarageIdx_none_iff _).mpr hg
  rw [request_move_eval_occupied st i a ho, hming]

theorem move_to_garage_empty_pools_error_witness :
    request_move_to_garage stW3 0 0 = Except.error Err.valueEmptyMin :=
  move_to_garage_empty_pools_error stW3 0 0 rfl rfl

/-- C6: a successful or failed `request_land` never overwrites an occupied
slot: whenever the occupant of a slot changed, that slot was previously
empty and now holds the landing unit, and at most one slot changed.  Since
slots hold at most one occupant by construction, no two units ever share a
slot. -/
theorem request_land_no_overwrite (st : AirportState) (a : Nat)
    (st' : AirportState) (r : Bool) (outs : List Output)
    (h : request_land st a = Except.ok (st', r, outs)) :
    (∀ j, occ st' j ≠ occ st j → occ st j = none ∧ occ st' j = some a) ∧
    (∀ j j', occ st' j ≠ occ st j → occ st' j' ≠ occ st j' → j = j') := by
  cases hffi : firstFreeIdx st.airstrips with
  | none =>
    rw [request_land_eq_none st a hffi] at h
    cases h
    exact ⟨fun j hj => absurd rfl hj, fun j j' hj _ => absurd rfl hj⟩
  | some i =>
    rw [request_land_eval_some st a i hffi] at h
    rcases firstFreeIdx_spec hffi with ⟨hi, hfree⟩
    cases hnot : Aircraft.notify (aircraftAt (landState st a i) a) AEvent.landedEv with
    | error e => rw [hnot] at h; cases h
    | ok pr =>
      rw [hnot] at h
      cases h
      have hother : ∀ j, j ≠ i → occ (landState st a i) j = occ st j := by
        intro j hj
        show ((st.airstrips.set i
          { st.airstrips.getD i default with aircraft := some a }).getD j default).aircraft =
          (st.airstrips.getD j default).aircraft
        rw [getD_set_other _ _ _ _ _ hj]
      have hself : occ (landState st a i) i = some a := by
        show ((st.airstrips.set i
          { st.airstrips.getD i default with aircraft := some a }).getD i default).aircraft =
          some a
        rw [getD_set_self _ _ _ _ hi]
      constructor
      · intro j hj
        by_cases hji : j = i
        · subst hji
          exact ⟨hfree, hself⟩
        · exact absurd (hother j hji) hj
      · intro j j' hj hj'
        by_cases hji : j = i
        · by_cases hji' : j' = i
          · rw [hji, hji']
          · exact absurd (hother j' hji') hj'
        · exact absurd (hother j hji) hj

theorem request_land_no_overwrite_witness :
    occ stW1 1 = none ∧ occ (landState stW1 0 1) 1 = some 0 :=
  (request_land_no_overwrite stW1 0 (landState stW1 0 1) true
    [Output.landingMsg 0 2] (by rfl)).1 1 (by decide)

/-! ### Monotonicity of the aircraft flags -/

theorem monoStep_refl (st : AirportState) : MonoStep st st :=
  ⟨fun _ h => h, fun _ h => h, fun _ => rfl, id⟩

theorem monoStep_trans {s1 s2 s3 : AirportState}
    (a : MonoStep s1 s2) (b : MonoStep s2 s3) : MonoStep s1 s3 :=
  ⟨fun j h => b.1 j (a.1 j h), fun j h => b.2.1 j (a.2.1 j h),
    fun j => (b.2.2.1 j).trans (a.2.2.1 j), fun h => b.2.2.2 (a.2.2.2 h)⟩

theorem monoStep_of_aircrafts_set (st st' : AirportState) (a : Nat) (x : Aircraft)
    (hair : st'.aircrafts = st.aircrafts.set a x)
    (hland : (aircraftAt st a).isLanded = true → x.isLanded = true)
    (hpark : (aircraftAt st a).isMovedToGarage = true → x.isMovedToGarage = true)
    (hmed : x.hasMediator = (aircraftAt st a).hasMediator)
    (hpil : x.isMovedToGarage = true → x.isLanded = true) :
    MonoStep st st' := by
  have hat : ∀ j, aircraftAt st' j =
      if j = a ∧ a < st.aircrafts.length then x else aircraftAt st j := by
    intro j
    by_cases hja : j = a
    · subst hja
      by_cases hlt : j < st.aircrafts.length
      · rw [aircraftAt, hair, getD_set_self _ _ _ _ hlt, if_pos ⟨rfl, hlt⟩]
      · rw [aircraftAt, hair, set_ge _ _ _ (Nat.le_of_not_lt hlt),
          if_neg (fun hc => hlt hc.2)]
        rfl
    · rw [aircraftAt, hair, getD_set_other _ _ _ _ _ hja, if_neg (fun hc => hja hc.1)]
      rfl
  refine ⟨?_, ?_, ?_, ?_⟩
  · intro j hj
    rw [landedAt, hat j]
    split
    · next hc => exact hland (hc.1 ▸ hj)
    · next => exact hj
  · intro j hj
    rw [parkedAt, hat j]
    split
    · next hc => exact hpark (hc.1 ▸ hj)
    · next => exact hj
  · intro j
    rw [hat j]
    split
    · next hc => rw [hc.1]; exact hmed
    · next => rfl
  · intro hp ac hmem hpk
    rw [hair] at hmem
    rcases mem_set_elem _ _ _ _ hmem with hmem2 | rfl
    · exact hp ac hmem2 hpk
    · exact hpil hpk

theorem mono_request_land (st : AirportState) (a : Nat)
    (st' : AirportState) (r : Bool) (outs : List Output)
    (h : request_land st a = Except.ok (st', r, outs)) : MonoStep st st' := by
  cases hffi : firstFreeIdx st.airstrips with
  | none =>
    rw [request_land_eq_none st a hffi] at h
    cases h
    exact monoStep_refl st
  | some i =>
    rw [request_land_eval_some st a i hffi] at h
    cases hnot : Aircraft.notify (aircraftAt (landState st a i) a) AEvent.landedEv with
    | error e => rw [hnot] at h; exact Except.noConfusion h
    | ok pr =>
      rw [hnot] at h
      cases h
      exact monoStep_of_aircrafts_set st (landState st a i) a
        { aircraftAt st a with isLanded := true } rfl (fun _ => rfl) (fun h2 => h2) rfl
        (fun _ => rfl)

theorem mono_place (st : AirportState) (g a : Nat) (st' : AirportState) (b : Bool)
    (h : Garage.place st g a = (st', b)) : MonoStep st st' := by
  by_cases hl : (aircraftAt st a).isLanded = true
  · rw [place_success st g a hl] at h
    cases h
    exact monoStep_of_aircrafts_set st _ a
      { aircraftAt st a with isMovedToGarage := true } rfl (fun h2 => h2) (fun _ => rfl)
      rfl (fun _ => hl)
  · simp only [Bool.not_eq_true] at hl
    rw [place_fail st g a hl] at h
    cases h
    exact monoStep_refl st

theorem mono_unset (st : AirportState) (i : Nat) (st' : AirportState)
    (outs : List Output) (h : unset_aircraft st i = (st', outs)) : MonoStep st st' := by
  unfold unset_aircraft at h
  cases h
  exact ⟨fun _ hj => hj, fun _ hj => hj, fun _ => rfl, id⟩

theorem mono_move (st : AirportState) (i d : Nat) (st' : AirportState)
    (outs : List Output) (h : request_move_to_garage st i d = Except.ok (st', outs)) :
    MonoStep st st' := by
  cases hocc : occ st i with
  | none =>
    unfold request_move_to_garage at h
    rw [hocc] at h
    exact Except.noConfusion h
  | some o =>
    by_cases hd : d = 0
    · subst hd
      rw [request_move_eval_occupied st i o hocc] at h
      cases hmg : minGarageIdx st.garages with
      | none => rw [hmg] at h; exact Except.noConfusion h
      | some g =>
        rw [hmg] at h
        cases h
        exact monoStep_trans (mono_place st g o _ _ rfl)
          (mono_unset (Garage.place st g o).1 i _ _ rfl)
    · rw [move_to_garage_failure_frame st i d o hocc hd] at h
      cases h
      exact monoStep_refl st

theorem mono_drainAux (ds : Nat → Nat) :
    ∀ (idxs : List Nat) (st : AirportState) (k : Nat) (st1 : AirportState) (k1 : Nat),
      drainAux ds idxs st k = Except.ok (st1, k1) → MonoStep st st1 := by
  intro idxs
  induction idxs with
  | nil =>
    intro st k st1 k1 h
    unfold drainAux at h
    cases h
    exact monoStep_refl st
  | cons i rest ih =>
    intro st k st1 k1 h
    unfold drainAux at h
    cases hocc : occ st i with
    | none => rw [hocc] at h; exact ih _ _ _ _ h
    | some o =>
      rw [hocc] at h
      cases hmv : request_move_to_garage st i (ds k) with
      | error e => rw [hmv] at h; exact Except.noConfusion h
      | ok pr =>
        rw [hmv] at h
        exact monoStep_trans (mono_move st i (ds k) pr.1 pr.2 (by rw [hmv]))
          (ih _ _ _ _ h)

theorem mono_landAux :
    ∀ (l : List Nat) (st st' : AirportState),
      landAux l st = Except.ok st' → MonoStep st st' := by
  intro l
  induction l with
  | nil =>
    intro st st' h
    unfold landAux at h
    cases h
    exact monoStep_refl st
  | cons a rest ih =>
    intro st st' h
    unfold landAux at h
    by_cases hl : landedAt st a = true
    · rw [if_pos hl] at h
      exact ih _ _ h
    · rw [if_neg hl] at h
      cases hr : request_land st a with
      | error e => rw [hr] at h; exact Except.noConfusion h
      | ok pr =>
        rw [hr] at h
        exact monoStep_trans (mono_request_land st a pr.1 pr.2.1 pr.2.2 (by rw [hr]))
          (ih _ _ h)

theorem mono_runPass (st : AirportState) (units : List Nat) (ds : Nat → Nat)
    (k : Nat) (st1 : AirportState) (k1 : Nat)
    (h : runPass st units ds k = Except.ok (st1, k1)) : MonoStep st st1 := by
  cases hd : drainAux ds (List.range st.airstrips.length) st k with
  | error e =>
    rw [runPass_eval_drain_err st units ds k e hd] at h
    exact Except.noConfusion h
  | ok pr =>
    rw [runPass_eval_drain_ok st units ds k pr hd] at h
    cases hl : landAux units pr.1 with
    | error e => rw [hl] at h; exact Except.noConfusion h
    | ok st2 =>
      rw [hl] at h
      cases h
      exact monoStep_trans (mono_drainAux ds _ st k pr.1 pr.2 (by rw [hd]))
        (mono_landAux units pr.1 _ hl)

theorem mono_applyOp (units : List Nat) (st : AirportState) (op : Op)
    (st' : AirportState) (h : applyOp units st op = Except.ok st') : MonoStep st st' := by
  cases op with
  | land a =>
    have h2 : (match request_land st a with
        | Except.error e => Except.error e
        | Except.ok pr => Except.ok pr.1) = Except.ok st' := h
    cases hr : request_land st a with
    | error e => rw [hr] at h2; exact Except.noConfusion h2
    | ok pr =>
      rw [hr] at h2
      cases h2
      exact mono_request_land st a pr.1 pr.2.1 pr.2.2 (by rw [hr])
  | move i d =>
    have h2 : (match request_move_to_garage st i d with
        | Except.error e => Except.error e
        | Except.ok pr => Except.ok pr.1) = Except.ok st' := h
    cases hr : request_move_to_garage st i d with
    | error e => rw [hr] at h2; exact Except.noConfusion h2
    | ok pr =>
      rw [hr] at h2
      cases h2
      exact mono_move st i d pr.1 pr.2 (by rw [hr])
  | pass ds k =>
    have h2 : (match runPass st units ds k with
        | Except.error e => Except.error e
        | Except.ok pr => Except.ok pr.1) = Except.ok st' := h
    cases hr : runPass st units ds k with
    | error e => rw [hr] at h2; exact Except.noConfusion h2
    | ok pr =>
      rw [hr] at h2
      cases h2
      exact mono_runPass st units ds k pr.1 pr.2 (by rw [hr])

theorem mono_applyOps (units : List Nat) :
    ∀ (ops : List Op) (st st' : AirportState),
      applyOps units ops st = Except.ok st' → MonoStep st st' := by
  intro ops
  induction ops with
  | nil =>
    intro st st' h
    unfold applyOps at h
    cases h
    exact monoStep_refl st
  | cons op rest ih =>
    intro st st' h
    unfold applyOps at h
    cases hop : applyOp units st op with
    | error e => rw [hop] at h; exact Except.noConfusion h
    | ok st1 =>
      rw [hop] at h
      exact monoStep_trans (mono_applyOp units st op st1 hop) (ih _ _ h)

/-- C5: over any sequence of coordinator operations (landing requests, move
requests, control-loop passes), each unit's flags only ever move from false
to true and the parked-implies-landed invariant holds at every state reached
(every prefix of the sequence is itself a sequence), so the unit state
machine runs AIRBORNE to LANDED to PARKED with no backward and no skipped
transition. -/
theorem unit_state_monotonic (units : List Nat) (ops : List Op)
    (st st' : AirportState) (h : applyOps units ops st = Except.ok st') :
    (ParkedImpliesLanded st → ParkedImpliesLanded st') ∧
    (∀ j, landedAt st j = true → landedAt st' j = true) ∧
    (∀ j, parkedAt st j = true → parkedAt st' j = true) := by
  have hm := mono_applyOps units ops st st' h
  exact ⟨hm.2.2.2, hm.1, hm.2.1⟩

theorem unit_state_monotonic_witness :
    ParkedImpliesLanded (moveState stW2 0 0 0) ∧
    landedAt (moveState stW2 0 0 0) 0 = true :=
  ⟨(unit_state_monotonic [0] [Op.move 0 0] stW2 (moveState stW2 0 0 0) rfl).1
      (by decide),
    (unit_state_monotonic [0] [Op.move 0 0] stW2 (moveState stW2 0 0 0) rfl).2.1 0 rfl⟩

/-! ### Error analysis of the control loop -/

theorem move_occupied_no_attr (st : AirportState) (i draw a : Nat)
    (ho : occ st i = some a) :
    request_move_to_garage st i draw ≠ Except.error Err.attrNoneOccupant := by
  by_cases hd : draw = 0
  · subst hd
    rw [request_move_eval_occupied st i a ho]
    cases hmg : minGarageIdx st.garages with
    | none => simp
    | some g => simp
  · rw [move_to_garage_failure_frame st i draw a ho hd]
    simp

theorem request_land_error (st : AirportState) (a : Nat) (e : Err)
    (h : request_land st a = Except.error e) : e = Err.attrGetLineNumber := by
  cases hffi : firstFreeIdx st.airstrips with
  | none =>
    rw [request_land_eq_none st a hffi] at h
    exact Except.noConfusion h
  | some i =>
    rw [request_land_eval_some st a i hffi] at h
    cases hnot : Aircraft.notify (aircraftAt (landState st a i) a) AEvent.landedEv with
    | error e' =>
      rw [hnot] at h
      have h2 : (Except.error e' : Except Err (AirportState × Bool × List Output)) =
          Except.error e := h
      have he : e' = e := Except.error.inj h2
      subst he
      unfold Aircraft.notify at hnot
      by_cases hm : (aircraftAt (landState st a i) a).hasMediator = true
      · rw [if_pos hm] at hnot
        have h3 : (Except.error Err.attrGetLineNumber :
            Except Err (Aircraft × List Output)) = Except.error e' := hnot
        exact (Except.error.inj h3).symm
      · rw [if_neg hm] at hnot
        exact Except.noConfusion hnot
    | ok pr =>
      rw [hnot] at h
      exact Except.noConfusion h

theorem drainAux_error (ds : Nat → Nat) :
    ∀ (idxs : List Nat) (st : AirportState) (k : Nat) (e : Err),
      drainAux ds idxs st k = Except.error e → e ≠ Err.attrNoneOccupant := by
  intro idxs
  induction idxs with
  | nil =>
    intro st k e h
    unfold drainAux at h
    exact Except.noConfusion h
  | cons i rest ih =>
    intro st k e h
    unfold drainAux at h
    cases hocc : occ st i with
    | none => rw [hocc] at h; exact ih _ _ _ h
    | some o =>
      rw [hocc] at h
      cases hmv : request_move_to_garage st i (ds k) with
      | error e' =>
        rw [hmv] at h
        have h2 : (Except.error e' : Except Err (AirportState × Nat)) =
            Except.error e := h
        have he : e' = e := Except.error.inj h2
        subst he
        exact fun hc => move_occupied_no_attr st i (ds k) o hocc (hc ▸ hmv)
      | ok pr =>
        rw [hmv] at h
        exact ih _ _ _ h

theorem landAux_error :
    ∀ (l : List Nat) (st : AirportState) (e : Err),
      landAux l st = Except.error e → e = Err.attrGetLineNumber := by
  intro l
  induction l with
  | nil =>
    intro st e h
    unfold landAux at h
    exact Except.noConfusion h
  | cons a rest ih =>
    intro st e h
    unfold landAux at h
    by_cases hl : landedAt st a = true
    · rw [if_pos hl] at h
      exact ih _ _ h
    · rw [if_neg hl] at h
      cases hr : request_land st a with
      | error e' =>
        rw [hr] at h
        have h2 : (Except.error e' : Except Err AirportState) =
            Except.error e := h
        have he : e' = e := Except.error.inj h2
        subst he
        exact request_land_error st a _ hr
      | ok pr =>
        rw [hr] at h
        exact ih _ _ h

theorem runPass_error (st : AirportState) (units : List Nat) (ds : Nat → Nat)
    (k : Nat) (e : Err) (h : runPass st units ds k = Except.error e) :
    e ≠ Err.attrNoneOccupant := by
  cases hd : drainAux ds (List.range st.airstrips.length) st k with
  | error e' =>
    rw [runPass_eval_drain_err st units ds k e' hd] at h
    have he : e' = e := Except.error.inj h
    subst he
    exact drainAux_error ds _ st k e' hd
  | ok pr =>
    rw [runPass_eval_drain_ok st units ds k pr hd] at h
    cases hl : landAux units pr.1 with
    | error e' =>
      rw [hl] at h
      have h2 : (Except.error e' : Except Err (AirportState × Nat)) = Except.error e := h
      have he : e' = e := Except.error.inj h2
      subst he
      rw [landAux_error units pr.1 e' hl]
      exact fun hc => Err.noConfusion hc
    | ok st2 =>
      rw [hl] at h
      exact Except.noConfusion h

theorem runLoop_error :
    ∀ (fuel : Nat) (st : AirportState) (units : List Nat) (ds : Nat → Nat)
      (k : Nat) (e : Err),
      runLoop fuel st units ds k = Except.error e → e ≠ Err.attrNoneOccupant := by
  intro fuel
  induction fuel with
  | zero =>
    intro st units ds k e h
    unfold runLoop at h
    split at h <;> exact Except.noConfusion h
  | succ n ih =>
    intro st units ds k e h
    unfold runLoop at h
    split at h
    · cases hp : runPass st units ds k with
      | error e' =>
        rw [hp] at h
        have h2 : (Except.error e' : Except Err (Option AirportState)) =
            Except.error e := h
        have he : e' = e := Except.error.inj h2
        subst he
        exact runPass_error st units ds k e' hp
      | ok pr =>
        rw [hp] at h
        exact ih _ _ _ _ _ h
    · exact Except.noConfusion h

/-- C9: with an occupant present, `request_move_to_garage` never performs the
unguarded occupant read; with no occupant, the failure-branch display reads
off the empty occupant and raises (for every draw, since Python
short-circuits past the draw); and the control loop only invokes the
operation on occupied slots, so this error is unreachable from
`run_traffic_control`. -/
theorem move_to_garage_occupant_guard :
    (∀ st i draw, occ st i ≠ none →
      request_move_to_garage st i draw ≠ Except.error Err.attrNoneOccupant) ∧
    (∀ st i draw, occ st i = none →
      request_move_to_garage st i draw = Except.error Err.attrNoneOccupant) ∧
    (∀ fuel st units ds k e, runLoop fuel st units ds k = Except.error e →
      e ≠ Err.attrNoneOccupant) := by
  refine ⟨?_, ?_, ?_⟩
  · intro st i draw hne
    cases hocc : occ st i with
    | none => exact absurd hocc hne
    | some o => exact move_occupied_no_attr st i draw o hocc
  · intro st i draw hocc
    unfold request_move_to_garage
    rw [hocc]
  · intro fuel st units ds k e h
    exact runLoop_error fuel st units ds k e h

theorem move_to_garage_occupant_guard_witness :
    request_move_to_garage stW1 1 5 = Except.error Err.attrNoneOccupant ∧
    request_move_to_garage stW2 0 0 ≠ Except.error Err.attrNoneOccupant ∧
    Err.valueEmptyMin ≠ Err.attrNoneOccupant :=
  ⟨move_to_garage_occupant_guard.2.1 stW1 1 5 (by decide),
    move_to_garage_occupant_guard.1 stW2 0 0 (by decide),
    move_to_garage_occupant_guard.2.2 1 stW3 [0] (fun _ => 0) 0 Err.valueEmptyMin rfl⟩

/-- C10: the wiring built by `initialize_airport` registers the mediator
only on airstrips and garages; aircraft keep `_mediator = None` both at
setup and across every coordinator operation, so `Aircraft.notify` is always
a no-op that changes no state and emits no output, and landing and parking
messages come only from the direct display calls in `request_land` and
`request_move_to_garage`. -/
theorem aircraft_mediator_never_wired :
    (∀ st, (set_mediator_for_components st).aircrafts = st.aircrafts) ∧
    (∀ st i, i < st.airstrips.length →
      ((set_mediator_for_components st).airstrips.getD i default).hasMediator = true) ∧
    (∀ st g, g < st.garages.length →
      ((set_mediator_for_components st).garages.getD g default).hasMediator = true) ∧
    (∀ ap hc ns ng, ∀ ac ∈ (setup_airport ap hc ns ng).aircrafts,
      ac.hasMediator = false) ∧
    (∀ a e, a.hasMediator = false → Aircraft.notify a e = Except.ok (a, [])) ∧
    (∀ units st op st', applyOp units st op = Except.ok st' →
      ∀ j, (aircraftAt st' j).hasMediator = (aircraftAt st j).hasMediator) := by
  refine ⟨fun st => rfl, ?_, ?_, ?_, notify_unwired, ?_⟩
  · intro st i hi
    show ((st.airstrips.map (fun s : Airstrip => { s with hasMediator := true })).getD i
      default).hasMediator = true
    rw [getD_map_lt st.airstrips _ i default default hi]
  · intro st g hg
    show ((st.garages.map (fun x : Garage => { x with hasMediator := true })).getD g
      default).hasMediator = true
    rw [getD_map_lt st.garages _ g default default hg]
  · intro ap hc ns ng ac hmem
    have hmem2 : ac ∈ mkAircrafts (ap + hc) := hmem
    unfold mkAircrafts at hmem2
    rw [List.eq_of_mem_replicate hmem2]
    rfl
  · intro units st op st' h j
    exact (mono_applyOp units st op st' h).2.2.1 j

theorem aircraft_mediator_never_wired_witness :
    ((set_mediator_for_components stW1).airstrips.getD 0 default).hasMediator = true ∧
    Aircraft.notify (aircraftAt stW1 0) AEvent.landedEv =
      Except.ok (aircraftAt stW1 0, []) ∧
    (Aircraft.mk false false false).hasMediator = false ∧
    (aircraftAt (moveState stW2 0 0 0) 0).hasMediator = (aircraftAt stW2 0).hasMediator :=
  ⟨aircraft_mediator_never_wired.2.1 stW1 0 (by decide),
    aircraft_mediator_never_wired.2.2.2.2.1 (aircraftAt stW1 0) AEvent.landedEv rfl,
    aircraft_mediator_never_wired.2.2.2.1 1 1 1 1 (Aircraft.mk false false false)
      (by decide),
    aircraft_mediator_never_wired.2.2.2.2.2 [0] stW2 (Op.move 0 0)
      (moveState stW2 0 0 0) rfl 0⟩

/-! ### Control loop with zero airstrips -/

theorem landAux_no_strips :
    ∀ (l : List Nat) (st : AirportState), st.airstrips = [] →
      landAux l st = Except.ok st := by
  intro l
  induction l with
  | nil => intro st _; rfl
  | cons a rest ih =>
    intro st hstrips
    unfold landAux
    by_cases hl : landedAt st a = true
    · rw [if_pos hl]
      exact ih st hstrips
    · rw [if_neg hl, request_land_eq_none st a (by rw [hstrips]; rfl)]
      exact ih st hstrips

theorem runPass_no_strips (st : AirportState) (units : List Nat) (ds : Nat → Nat)
    (k : Nat) (hstrips : st.airstrips = []) :
    runPass st units ds k = Except.ok (st, k) := by
  have hd : drainAux ds (List.range st.airstrips.length) st k = Except.ok (st, k) := by
    rw [hstrips]
    rfl
  rw [runPass_eval_drain_ok st units ds k (st, k) hd]
  show (match landAux units st with
    | Except.error e => Except.error e
    | Except.ok st2 => Except.ok (st2, k)) = Except.ok (st, k)
  rw [landAux_no_strips units st hstrips]

theorem runLoop_no_strips :
    ∀ (fuel : Nat) (st : AirportState) (units : List Nat) (ds : Nat → Nat) (k : Nat),
      st.airstrips = [] → loopActive st units = true →
      runLoop fuel st units ds k = Except.ok none := by
  intro fuel
  induction fuel with
  | zero =>
    intro st units ds k _ hl
    unfold runLoop
    rw [if_pos hl]
  | succ n ih =>
    intro st units ds k h hl
    unfold runLoop
    rw [if_pos hl, runPass_no_strips st units ds k h]
    show runLoop n st units ds k = Except.ok none
    exact ih st units ds k h hl

/-! ### State accessor lemmas for landState and moveState -/

theorem aircraftAt_set_eq (st st' : AirportState) (a : Nat) (x : Aircraft)
    (hair : st'.aircrafts = st.aircrafts.set a x) (j : Nat) :
    aircraftAt st' j =
      if j = a ∧ a < st.aircrafts.length then x else aircraftAt st j := by
  by_cases hja : j = a
  · subst hja
    by_cases hlt : j < st.aircrafts.length
    · rw [aircraftAt, hair, getD_set_self _ _ _ _ hlt, if_pos ⟨rfl, hlt⟩]
    · rw [aircraftAt, hair, set_ge _ _ _ (Nat.le_of_not_lt hlt),
        if_neg (fun hc => hlt hc.2)]
      rfl
  · rw [aircraftAt, hair, getD_set_other _ _ _ _ _ hja, if_neg (fun hc => hja hc.1)]
    rfl

theorem occ_state_set {st st' : AirportState} {i : Nat} {xs : Airstrip}
    (h : st'.airstrips = st.airstrips.set i xs) (j : Nat) (hj : j ≠ i) :
    occ st' j = occ st j := by
  rw [occ, h, getD_set_other _ _ _ _ _ hj]
  rfl

theorem occ_state_set_self {st st' : AirportState} {i : Nat} {xs : Airstrip}
    (h : st'.airstrips = st.airstrips.set i xs) (hi : i < st.airstrips.length) :
    occ st' i = xs.aircraft := by
  rw [occ, h, getD_set_self _ _ _ _ hi]

theorem occ_landState_self (st : AirportState) (a i : Nat)
    (hi : i < st.airstrips.length) : occ (landState st a i) i = some a :=
  occ_state_set_self rfl hi

theorem occ_landState_other (st : AirportState) (a i j : Nat) (hj : j ≠ i) :
    occ (landState st a i) j = occ st j :=
  occ_state_set rfl j hj

theorem occ_moveState_self (st : AirportState) (i o g : Nat)
    (hi : i < st.airstrips.length) : occ (moveState st i o g) i = none :=
  occ_state_set_self rfl hi

theorem occ_moveState_other (st : AirportState) (i o g j : Nat) (hj : j ≠ i) :
    occ (moveState st i o g) j = occ st j :=
  occ_state_set rfl j hj

theorem parkedAt_landState (st : AirportState) (a i j : Nat) :
    parkedAt (landState st a i) j = parkedAt st j := by
  rw [parkedAt, aircraftAt_set_eq st (landState st a i) a
    { aircraftAt st a with isLanded := true } rfl j]
  split
  · next hc => rw [hc.1]; rfl
  · rfl

theorem landedAt_landState_other (st : AirportState) (a i b : Nat) (hba : b ≠ a) :
    landedAt (landState st a i) b = landedAt st b := by
  rw [landedAt, aircraftAt_set_eq st (landState st a i) a
    { aircraftAt st a with isLanded := true } rfl b, if_neg (fun hc => hba hc.1)]
  rfl

theorem landedAt_landState_self (st : AirportState) (a i : Nat)
    (ha : a < st.aircrafts.length) : landedAt (landState st a i) a = true := by
  rw [landedAt, aircraftAt_set_eq st (landState st a i) a
    { aircraftAt st a with isLanded := true } rfl a, if_pos ⟨rfl, ha⟩]

theorem parkedAt_moveState_self (st : AirportState) (i o g : Nat)
    (ho : o < st.aircrafts.length) : parkedAt (moveState st i o g) o = true := by
  rw [parkedAt, aircraftAt_set_eq st (moveState st i o g) o
    { aircraftAt st o with isMovedToGarage := true } rfl o, if_pos ⟨rfl, ho⟩]

theorem parkedAt_moveState_other (st : AirportState) (i o g b : Nat) (hb : b ≠ o) :
    parkedAt (moveState st i o g) b = parkedAt st b := by
  rw [parkedAt, aircraftAt_set_eq st (moveState st i o g) o
    { aircraftAt st o with isMovedToGarage := true } rfl b, if_neg (fun hc => hb hc.1)]
  rfl

theorem landedAt_moveState (st : AirportState) (i o g b : Nat) :
    landedAt (moveState st i o g) b = landedAt st b := by
  rw [landedAt, aircraftAt_set_eq st (moveState st i o g) o
    { aircraftAt st o with isMovedToGarage := true } rfl b]
  split
  · next hc => rw [hc.1]; rfl
  · rfl

theorem landState_len_airstrips (st : AirportState) (a i : Nat) :
    (landState st a i).airstrips.length = st.airstrips.length := by
  show (st.airstrips.set i _).length = st.airstrips.length
  rw [List.length_set]

theorem landState_len_aircrafts (st : AirportState) (a i : Nat) :
    (landState st a i).aircrafts.length = st.aircrafts.length := by
  show (st.aircrafts.set a _).length = st.aircrafts.length
  rw [List.length_set]

theorem moveState_len_airstrips (st : AirportState) (i o g : Nat) :
    (moveState st i o g).airstrips.length = st.airstrips.length := by
  show (st.airstrips.set i _).length = st.airstrips.length
  rw [List.length_set]

theorem moveState_len_aircrafts (st : AirportState) (i o g : Nat) :
    (moveState st i o g).aircrafts.length = st.aircrafts.length := by
  show (st.aircrafts.set o _).length = st.aircrafts.length
  rw [List.length_set]

theorem slotBad_congr (st st' : AirportState) (units : List Nat) (s : Airstrip)
    (hp : ∀ p, s.aircraft = some p → parkedAt st' p = parkedAt st p) :
    slotBad st' units s = slotBad st units s := by
  unfold slotBad
  cases hsa : s.aircraft with
  | none => rfl
  | some p =>
    show (!units.contains p || parkedAt st' p) = (!units.contains p || parkedAt st p)
    rw [hp p hsa]

theorem occupant_landed {st : AirportState} {units : List Nat}
    (hg : GoodState st units) {i o : Nat} (hocc : occ st i = some o) :
    landedAt st o = true := by
  have hi : i < st.airstrips.length := occ_lt hocc
  have hmem := getD_mem st.airstrips i default hi
  have h2 := hg.2.1 _ hmem
  rw [show (st.airstrips.getD i default).aircraft = some o from hocc] at h2
  exact h2

theorem occupant_landed_mem {st : AirportState} {units : List Nat}
    (hg : GoodState st units) {s : Airstrip} (hs : s ∈ st.airstrips) {o : Nat}
    (ho : s.aircraft = some o) : landedAt st o = true := by
  have h2 := hg.2.1 s hs
  rw [ho] at h2
  exact h2

theorem not_occupant_of_unlanded {st : AirportState} {units : List Nat}
    (hg : GoodState st units) {a : Nat} (hnl : landedAt st a = false) :
    ∀ j, occ st j ≠ some a := by
  intro j hj
  have h2 := occupant_landed hg hj
  rw [hnl] at h2
  exact Bool.noConfusion h2

theorem loopActive_iff (st : AirportState) (units : List Nat) :
    loopActive st units = true ↔ ∃ a ∈ units, parkedAt st a = false := by
  unfold loopActive
  rw [List.any_eq_true]
  constructor
  · rintro ⟨a, ha, hpa⟩
    exact ⟨a, ha, by simpa using hpa⟩
  · rintro ⟨a, ha, hpa⟩
    exact ⟨a, ha, by simpa using hpa⟩

theorem badOcc_split (st' st : AirportState) (units : List Nat) (i : Nat)
    (xs : Airstrip) (hi : i < st.airstrips.length)
    (hset : st'.airstrips = st.airstrips.set i xs)
    (hcong : ∀ s, (s ∈ st.airstrips.take i ∨ s ∈ st.airstrips.drop (i + 1)) →
      slotBad st' units s = slotBad st units s) :
    badOccCount st' units +
        (if slotBad st units (st.airstrips.getD i default) then 1 else 0) =
      badOccCount st units + (if slotBad st' units xs then 1 else 0) := by
  unfold badOccCount
  rw [hset, set_take_drop st.airstrips i xs hi, List.countP_append, List.countP_cons]
  conv_rhs => rw [take_getD_drop st.airstrips i default hi]
  rw [List.countP_append, List.countP_cons]
  have ht : (st.airstrips.take i).countP (slotBad st' units) =
      (st.airstrips.take i).countP (slotBad st units) :=
    countP_congr_mem _ _ _ (fun s hs => hcong s (Or.inl hs))
  have hd : (st.airstrips.drop (i + 1)).countP (slotBad st' units) =
      (st.airstrips.drop (i + 1)).countP (slotBad st units) :=
    countP_congr_mem _ _ _ (fun s hs => hcong s (Or.inr hs))
  rw [ht, hd]
  omega

theorem good_land (st : AirportState) (units : List Nat) (a i : Nat)
    (hg : GoodState st units) (ha : a ∈ units)
    (hnl : landedAt st a = false)
    (hffi : firstFreeIdx st.airstrips = some i) :
    GoodState (landState st a i) units ∧
    passMeasure (landState st a i) units = passMeasure st units ∧
    (∀ j, occ st j ≠ none → occ (landState st a i) j ≠ none) ∧
    landedAt (landState st a i) a = true ∧
    (∀ b, landedAt st b = true → landedAt (landState st a i) b = true) := by
  obtain ⟨hpil, hocl, hnd, hlos, huv⟩ := hg
  have hgfull : GoodState st units := ⟨hpil, hocl, hnd, hlos, huv⟩
  obtain ⟨hi, hfree⟩ := firstFreeIdx_spec hffi
  have haL : a < st.aircrafts.length := huv a ha
  have hpk : parkedAt st a = false := by
    cases hv : parkedAt st a with
    | false => rfl
    | true =>
      have h2 := pil_at hpil a hv
      rw [hnl] at h2
      exact Bool.noConfusion h2
  have hlmono : ∀ b, landedAt st b = true → landedAt (landState st a i) b = true := by
    intro b hb
    by_cases hba : b = a
    · subst hba
      exact landedAt_landState_self st b i haL
    · rw [landedAt_landState_other st a i b hba]
      exact hb
  have hlandA : landedAt (landState st a i) a = true := landedAt_landState_self st a i haL
  refine ⟨⟨?_, ?_, ?_, ?_, ?_⟩, ?_, ?_, hlandA, hlmono⟩
  · exact (monoStep_of_aircrafts_set st (landState st a i) a
      { aircraftAt st a with isLanded := true } rfl (fun _ => rfl) (fun h2 => h2) rfl
      (fun _ => rfl)).2.2.2 hpil
  · intro s hs
    have hs2 : s ∈ st.airstrips.set i
        { st.airstrips.getD i default with aircraft := some a } := hs
    rcases mem_set_elem _ _ _ _ hs2 with hmem | rfl
    · have h2 := hocl s hmem
      cases hsa : s.aircraft with
      | none => rfl
      | some p =>
        rw [hsa] at h2
        show landedAt (landState st a i) p = true
        exact hlmono p h2
    · show landedAt (landState st a i) a = true
      exact hlandA
  · show ((st.airstrips.set i
      { st.airstrips.getD i default with aircraft := some a }).filterMap
        Airstrip.aircraft).Nodup
    have hnd2 : OccupantsNodup st := hnd
    unfold OccupantsNodup at hnd2
    rw [take_getD_drop st.airstrips i default hi, List.filterMap_append,
      List.filterMap_cons_none hfree] at hnd2
    rw [set_take_drop st.airstrips i _ hi, List.filterMap_append,
      List.filterMap_cons_some
        (show Airstrip.aircraft
          { st.airstrips.getD i default with aircraft := some a } = some a from rfl)]
    refine List.nodup_middle.mpr (List.nodup_cons.mpr ⟨?_, hnd2⟩)
    intro hmem
    rcases List.mem_append.mp hmem with hmem2 | hmem2
    · rcases List.mem_filterMap.mp hmem2 with ⟨s, hsmem, hseq⟩
      have h3 := occupant_landed_mem hgfull (List.mem_of_mem_take hsmem) hseq
      rw [hnl] at h3
      exact Bool.noConfusion h3
    · rcases List.mem_filterMap.mp hmem2 with ⟨s, hsmem, hseq⟩
      have h3 := occupant_landed_mem hgfull (List.mem_of_mem_drop hsmem) hseq
      rw [hnl] at h3
      exact Bool.noConfusion h3
  · intro b hb hlb hpb
    by_cases hba : b = a
    · subst hba
      exact (mem_map_iff_getD _ _).mpr
        ⟨i, by rw [landState_len_airstrips]; exact hi, occ_landState_self st b i hi⟩
    · have hlb2 : landedAt st b = true := by
        rw [landedAt_landState_other st a i b hba] at hlb
        exact hlb
      have hpb2 : parkedAt st b = false := by
        rw [parkedAt_landState st a i b] at hpb
        exact hpb
      rcases (mem_map_iff_getD _ _).mp (hlos b hb hlb2 hpb2) with ⟨j, hj, hjocc⟩
      have hji : j ≠ i := by
        intro hc
        subst hc
        rw [show (st.airstrips.getD j default).aircraft = none from hfree] at hjocc
        exact Option.noConfusion hjocc
      refine (mem_map_iff_getD _ _).mpr ⟨j, ?_, ?_⟩
      · rw [landState_len_airstrips]
        exact hj
      · show occ (landState st a i) j = some b
        rw [occ_landState_other st a i j hji]
        exact hjocc
  · intro b hb
    rw [landState_len_aircrafts]
    exact huv b hb
  · unfold passMeasure
    have hunp : unparkedCount (landState st a i) units = unparkedCount st units := by
      unfold unparkedCount
      exact countP_congr_mem _ _ _ (fun b _ => by rw [parkedAt_landState st a i b])
    have hcong : ∀ s, (s ∈ st.airstrips.take i ∨ s ∈ st.airstrips.drop (i + 1)) →
        slotBad (landState st a i) units s = slotBad st units s :=
      fun s _ => slotBad_congr st (landState st a i) units s
        (fun p _ => parkedAt_landState st a i p)
    have hsplit := badOcc_split (landState st a i) st units i
      { st.airstrips.getD i default with aircraft := some a } hi rfl hcong
    have h1 : slotBad st units (st.airstrips.getD i default) = false := by
      unfold slotBad
      rw [hfree]
    have h2 : slotBad (landState st a i) units
        { st.airstrips.getD i default with aircraft := some a } = false := by
      show (!units.contains a || parkedAt (landState st a i) a) = false
      rw [parkedAt_landState st a i a, hpk,
        show units.contains a = true from by simpa using ha]
      rfl
    rw [h1, h2] at hsplit
    simp at hsplit
    omega
  · intro j hj
    by_cases hji : j = i
    · subst hji
      rw [occ_landState_self st a j hi]
      simp
    · rw [occ_landState_other st a i j hji]
      exact hj

theorem good_drain_success (st : AirportState) (units : List Nat) (i o g : Nat)
    (hg : GoodState st units)
    (hocc : occ st i = some o)
    (hming : minGarageIdx st.garages = some g) :
    GoodState (moveState st i o g) units ∧
    passMeasure (moveState st i o g) units < passMeasure st units ∧
    (∀ b, landedAt st b = true → landedAt (moveState st i o g) b = true) := by
  obtain ⟨hpil, hocl, hnd, hlos, huv⟩ := hg
  have hgfull : GoodState st units := ⟨hpil, hocl, hnd, hlos, huv⟩
  have hi : i < st.airstrips.length := occ_lt hocc
  have hlo : landedAt st o = true := occupant_landed hgfull hocc
  have hoL : o < st.aircrafts.length := landed_lt hlo
  have hlmono : ∀ b, landedAt st b = true → landedAt (moveState st i o g) b = true := by
    intro b hb
    rw [landedAt_moveState]
    exact hb
  have hnd2 : ((st.airstrips.take i).filterMap Airstrip.aircraft ++
      o :: (st.airstrips.drop (i + 1)).filterMap Airstrip.aircraft).Nodup := by
    have h2 : OccupantsNodup st := hnd
    unfold OccupantsNodup at h2
    rw [take_getD_drop st.airstrips i default hi, List.filterMap_append,
      List.filterMap_cons_some
        (show Airstrip.aircraft (st.airstrips.getD i default) = some o from hocc)] at h2
    exact h2
  have hnotmem := (List.nodup_cons.mp (List.nodup_middle.mp hnd2)).1
  have hndrest := (List.nodup_cons.mp (List.nodup_middle.mp hnd2)).2
  have hocc_ne : ∀ s, (s ∈ st.airstrips.take i ∨ s ∈ st.airstrips.drop (i + 1)) →
      s.aircraft ≠ some o := by
    intro s hs hso
    apply hnotmem
    rcases hs with hs | hs
    · exact List.mem_append.mpr (Or.inl (List.mem_filterMap.mpr ⟨s, hs, hso⟩))
    · exact List.mem_append.mpr (Or.inr (List.mem_filterMap.mpr ⟨s, hs, hso⟩))
  have hcong : ∀ s, (s ∈ st.airstrips.take i ∨ s ∈ st.airstrips.drop (i + 1)) →
      slotBad (moveState st i o g) units s = slotBad st units s := by
    intro s hs
    refine slotBad_congr st (moveState st i o g) units s (fun p hp => ?_)
    have hpo : p ≠ o := fun hc => hocc_ne s hs (hc ▸ hp)
    exact parkedAt_moveState_other st i o g p hpo
  have hsplit := badOcc_split (moveState st i o g) st units i
    { st.airstrips.getD i default with aircraft := none } hi rfl hcong
  have hxs2 : slotBad (moveState st i o g) units
      { st.airstrips.getD i default with aircraft := none } = false := rfl
  refine ⟨⟨?_, ?_, ?_, ?_, ?_⟩, ?_, hlmono⟩
  · exact (monoStep_of_aircrafts_set st (moveState st i o g) o
      { aircraftAt st o with isMovedToGarage := true } rfl (fun h2 => h2)
      (fun _ => rfl) rfl (fun _ => hlo)).2.2.2 hpil
  · intro s hs
    have hs2 : s ∈ st.airstrips.set i
        { st.airstrips.getD i default with aircraft := none } := hs
    rcases mem_set_elem _ _ _ _ hs2 with hmem | rfl
    · have h2 := hocl s hmem
      cases hsa : s.aircraft with
      | none => rfl
      | some p =>
        rw [hsa] at h2
        show landedAt (moveState st i o g) p = true
        exact hlmono p h2
    · rfl
  · show ((st.airstrips.set i
      { st.airstrips.getD i default with aircraft := none }).filterMap
        Airstrip.aircraft).Nodup
    rw [set_take_drop st.airstrips i _ hi, List.filterMap_append,
      List.filterMap_cons_none
        (show Airstrip.aircraft
          { st.airstrips.getD i default with aircraft := none } = none from rfl)]
    exact hndrest
  · intro b hb hlb hpb
    by_cases hbo : b = o
    · subst hbo
      rw [parkedAt_moveState_self st i b g hoL] at hpb
      exact Bool.noConfusion hpb
    · have hlb2 : landedAt st b = true := by
        rw [landedAt_moveState] at hlb
        exact hlb
      have hpb2 : parkedAt st b = false := by
        rw [parkedAt_moveState_other st i o g b hbo] at hpb
        exact hpb
      rcases (mem_map_iff_getD _ _).mp (hlos b hb hlb2 hpb2) with ⟨j, hj, hjocc⟩
      have hji : j ≠ i := by
        intro hc
        subst hc
        rw [show (st.airstrips.getD j default).aircraft = some o from hocc] at hjocc
        exact hbo (Option.some.inj hjocc).symm
      refine (mem_map_iff_getD _ _).mpr ⟨j, ?_, ?_⟩
      · rw [moveState_len_airstrips]
        exact hj
      · show occ (moveState st i o g) j = some b
        rw [occ_moveState_other st i o g j hji]
        exact hjocc
  · intro b hb
    rw [moveState_len_aircrafts]
    exact huv b hb
  · by_cases hcase : units.contains o = true ∧ parkedAt st o = false
    · have homem : o ∈ units := by simpa using hcase.1
      have hunp : unparkedCount (moveState st i o g) units + 1 =
          unparkedCount st units := by
        unfold unparkedCount
        refine countP_flip_nodup units.dedup (fun b => !parkedAt st b)
          (fun b => !parkedAt (moveState st i o g) b) o (List.nodup_dedup units)
          (List.mem_dedup.mpr homem) ?_ ?_ ?_
        · show (!parkedAt st o) = true
          rw [hcase.2]
          rfl
        · show (!parkedAt (moveState st i o g) o) = false
          rw [parkedAt_moveState_self st i o g hoL]
          rfl
        · intro b _ hbo
          show (!parkedAt (moveState st i o g) b) = (!parkedAt st b)
          rw [parkedAt_moveState_other st i o g b hbo]
      have h1 : slotBad st units (st.airstrips.getD i default) = false := by
        show (match (st.airstrips.getD i default).aircraft with
          | none => false
          | some p => !units.contains p || parkedAt st p) = false
        rw [show (st.airstrips.getD i default).aircraft = some o from hocc]
        show (!units.contains o || parkedAt st o) = false
        rw [hcase.1, hcase.2]
        rfl
      rw [h1, hxs2] at hsplit
      simp at hsplit
      unfold passMeasure
      omega
    · have hslot : slotBad st units (st.airstrips.getD i default) = true := by
        show (match (st.airstrips.getD i default).aircraft with
          | none => false
          | some p => !units.contains p || parkedAt st p) = true
        rw [show (st.airstrips.getD i default).aircraft = some o from hocc]
        show (!units.contains o || parkedAt st o) = true
        cases hc : units.contains o with
        | false => rfl
        | true =>
          cases hp : parkedAt st o with
          | true => rfl
          | false => exact absurd ⟨hc, hp⟩ hcase
      have hunpEq : unparkedCount (moveState st i o g) units =
          unparkedCount st units := by
        unfold unparkedCount
        refine countP_congr_mem _ _ _ (fun b hbmem => ?_)
        show (!parkedAt (moveState st i o g) b) = (!parkedAt st b)
        by_cases hbo : b = o
        · subst hbo
          have hcont : units.contains b = true := by
            simpa using List.mem_dedup.mp hbmem
          have hpko : parkedAt st b = true := by
            cases hp : parkedAt st b with
            | true => rfl
            | false => exact absurd ⟨hcont, hp⟩ hcase
          rw [parkedAt_moveState_self st i b g hoL, hpko]
        · rw [parkedAt_moveState_other st i o g b hbo]
      rw [hslot, hxs2] at hsplit
      simp at hsplit
      unfold passMeasure
      omega

theorem measure_zero_inactive (st : AirportState) (units : List Nat)
    (h : passMeasure st units = 0) : loopActive st units = false := by
  have hu : unparkedCount st units = 0 := by
    unfold passMeasure at h
    omega
  cases hv : loopActive st units with
  | false => rfl
  | true =>
    exfalso
    rcases (loopActive_iff st units).mp hv with ⟨a, ha, hpa⟩
    have hmem : a ∈ units.dedup := List.mem_dedup.mpr ha
    have h2 := List.countP_eq_zero.mp hu a hmem
    simp [hpa] at h2

theorem drain_spec (ds : Nat → Nat) (units : List Nat) :
    ∀ (idxs : List Nat) (st : AirportState) (k : Nat) (st1 : AirportState) (k1 : Nat),
      GoodState st units →
      drainAux ds idxs st k = Except.ok (st1, k1) →
      GoodState st1 units ∧ k ≤ k1 ∧
      passMeasure st1 units ≤ passMeasure st units ∧
      (passMeasure st1 units = passMeasure st units →
        ∀ j, k ≤ j → j < k1 → ds j ≠ 0) ∧
      ((∃ i ∈ idxs, occ st i ≠ none) → k < k1) ∧
      (k1 = k → st1 = st) ∧
      st1.airstrips.length = st.airstrips.length ∧
      (∀ b, landedAt st b = true → landedAt st1 b = true) := by
  intro idxs
  induction idxs with
  | nil =>
    intro st k st1 k1 hg h
    have h2 : (Except.ok (st, k) : Except Err (AirportState × Nat)) =
      Except.ok (st1, k1) := h
    cases h2
    exact ⟨hg, Nat.le_refl k, Nat.le_refl _,
      fun _ j h1 h2 => absurd (Nat.lt_of_le_of_lt h1 h2) (Nat.lt_irrefl k),
      fun hex => by rcases hex with ⟨i, hi, _⟩; exact absurd hi (List.not_mem_nil i),
      fun _ => rfl, rfl, fun _ hb => hb⟩
  | cons i rest ih =>
    intro st k st1 k1 hg h
    unfold drainAux at h
    cases hocc : occ st i with
    | none =>
      rw [hocc] at h
      obtain ⟨c1, c2, c3, c4, c5, c6, c7, c8⟩ := ih st k st1 k1 hg h
      refine ⟨c1, c2, c3, c4, ?_, c6, c7, c8⟩
      rintro ⟨i2, hi2, hne⟩
      rcases List.mem_cons.mp hi2 with rfl | hi3
      · exact absurd hocc hne
      · exact c5 ⟨i2, hi3, hne⟩
    | some o =>
      rw [hocc] at h
      cases hmv : request_move_to_garage st i (ds k) with
      | error e => rw [hmv] at h; exact Except.noConfusion h
      | ok pr =>
        rw [hmv] at h
        by_cases hdk : ds k = 0
        · rw [hdk] at hmv
          cases hming : minGarageIdx st.garages with
          | none =>
            rw [request_move_eval_occupied st i o hocc, hming] at hmv
            exact Except.noConfusion hmv
          | some g =>
            have hlo : landedAt st o = true := occupant_landed hg hocc
            have hmv2 := request_move_eq_success st i o g hocc hlo hming
            have hpr : pr.1 = moveState st i o g := by
              rw [hmv] at hmv2
              have h3 := Except.ok.inj hmv2
              rw [h3]
            obtain ⟨hgM, hmlt, hlmono⟩ := good_drain_success st units i o g hg hocc hming
            have h5 : drainAux ds rest pr.1 (k + 1) = Except.ok (st1, k1) := h
            rw [hpr] at h5
            obtain ⟨c1, c2, c3, c4, c5, c6, c7, c8⟩ :=
              ih (moveState st i o g) (k + 1) st1 k1 hgM h5
            refine ⟨c1, Nat.le_trans (Nat.le_succ k) c2,
              Nat.le_trans c3 (Nat.le_of_lt hmlt), ?_,
              fun _ => Nat.lt_of_lt_of_le (Nat.lt_succ_self k) c2, ?_,
              c7.trans (moveState_len_airstrips st i o g),
              fun b hb => c8 b (hlmono b hb)⟩
            · intro heq j _ _
              exfalso
              have h4 := Nat.lt_of_le_of_lt c3 hmlt
              omega
            · intro hk
              exfalso
              omega
        · have hmv3 := move_to_garage_failure_frame st i (ds k) o hocc hdk
          have hpr : pr.1 = st := by
            rw [hmv] at hmv3
            have h3 := Except.ok.inj hmv3
            rw [h3]
          have h5 : drainAux ds rest pr.1 (k + 1) = Except.ok (st1, k1) := h
          rw [hpr] at h5
          obtain ⟨c1, c2, c3, c4, c5, c6, c7, c8⟩ := ih st (k + 1) st1 k1 hg h5
          refine ⟨c1, Nat.le_trans (Nat.le_succ k) c2, c3, ?_,
            fun _ => Nat.lt_of_lt_of_le (Nat.lt_succ_self k) c2, ?_, c7, c8⟩
          · intro heq j hj1 hj2
            rcases Nat.eq_or_lt_of_le hj1 with rfl | hlt
            · exact hdk
            · exact c4 heq j hlt hj2
          · intro hk
            exfalso
            omega

theorem land_spec (units : List Nat) :
    ∀ (l : List Nat) (st st1 : AirportState),
      (∀ b ∈ l, b ∈ units) →
      GoodState st units →
      landAux l st = Except.ok st1 →
      GoodState st1 units ∧
      passMeasure st1 units = passMeasure st units ∧
      (∀ j, occ st j ≠ none → occ st1 j ≠ none) ∧
      (∀ b, landedAt st b = true → landedAt st1 b = true) ∧
      st1.airstrips.length = st.airstrips.length ∧
      (∀ b ∈ l, landedAt st1 b = true ∨
        ∀ j, j < st1.airstrips.length → occ st1 j ≠ none) := by
  intro l
  induction l with
  | nil =>
    intro st st1 _ hg h
    have h2 : (Except.ok st : Except Err AirportState) = Except.ok st1 := h
    cases h2
    exact ⟨hg, rfl, fun _ hj => hj, fun _ hb => hb, rfl,
      fun b hb => absurd hb (List.not_mem_nil b)⟩
  | cons a rest ih =>
    intro st st1 hsub hg h
    unfold landAux at h
    by_cases hl : landedAt st a = true
    · rw [if_pos hl] at h
      obtain ⟨c1, c2, c3, c4, c5, c6⟩ :=
        ih st st1 (fun b hb => hsub b (List.mem_cons_of_mem a hb)) hg h
      refine ⟨c1, c2, c3, c4, c5, ?_⟩
      intro b hb
      rcases List.mem_cons.mp hb with rfl | hb2
      · exact Or.inl (c4 b hl)
      · exact c6 b hb2
    · rw [if_neg hl] at h
      have hnl : landedAt st a = false := by simpa using hl
      cases hr : request_land st a with
      | error e => rw [hr] at h; exact Except.noConfusion h
      | ok pr =>
        rw [hr] at h
        cases hffi : firstFreeIdx st.airstrips with
        | none =>
          have hr2 := request_land_eq_none st a hffi
          have hpr : pr.1 = st := by
            rw [hr] at hr2
            have h3 := Except.ok.inj hr2
            rw [h3]
          have h5 : landAux rest pr.1 = Except.ok st1 := h
          rw [hpr] at h5
          obtain ⟨c1, c2, c3, c4, c5, c6⟩ :=
            ih st st1 (fun b hb => hsub b (List.mem_cons_of_mem a hb)) hg h5
          have halloc : ∀ j, j < st.airstrips.length → occ st j ≠ none :=
            firstFreeIdx_none_spec hffi
          refine ⟨c1, c2, c3, c4, c5, ?_⟩
          intro b hb
          rcases List.mem_cons.mp hb with rfl | hb2
          · right
            intro j hj
            have hj2 : j < st.airstrips.length := by
              rw [c5] at hj
              exact hj
            exact c3 j (halloc j hj2)
          · exact c6 b hb2
        | some i =>
          have hpr : pr.1 = landState st a i := by
            rw [request_land_eval_some st a i hffi] at hr
            cases hnot : Aircraft.notify (aircraftAt (landState st a i) a)
                AEvent.landedEv with
            | error e => rw [hnot] at hr; exact Except.noConfusion hr
            | ok pr2 =>
              rw [hnot] at hr
              have h3 := Except.ok.inj hr
              rw [← h3]
          obtain ⟨hgL, hmeas, hpersist, hlandA, hlmono⟩ :=
            good_land st units a i hg (hsub a (List.mem_cons_self a rest)) hnl hffi
          have h5 : landAux rest pr.1 = Except.ok st1 := h
          rw [hpr] at h5
          obtain ⟨c1, c2, c3, c4, c5, c6⟩ :=
            ih (landState st a i) st1
              (fun b hb => hsub b (List.mem_cons_of_mem a hb)) hgL h5
          refine ⟨c1, c2.trans hmeas, fun j hj => c3 j (hpersist j hj),
            fun b hb => c4 b (hlmono b hb),
            c5.trans (landState_len_airstrips st a i), ?_⟩
          intro b hb
          rcases List.mem_cons.mp hb with rfl | hb2
          · exact Or.inl (c4 b hlandA)
          · exact c6 b hb2

theorem pass_spec (st : AirportState) (units : List Nat) (ds : Nat → Nat) (k : Nat)
    (st2 : AirportState) (k1 : Nat)
    (hg : GoodState st units)
    (h : runPass st units ds k = Except.ok (st2, k1)) :
    GoodState st2 units ∧ k ≤ k1 ∧
    passMeasure st2 units ≤ passMeasure st units ∧
    (passMeasure st2 units = passMeasure st units → ∀ j, k ≤ j → j < k1 → ds j ≠ 0) ∧
    ((∃ i, i < st.airstrips.length ∧ occ st i ≠ none) → k < k1) ∧
    st2.airstrips.length = st.airstrips.length ∧
    (k1 = k → loopActive st2 units = true → 1 ≤ st.airstrips.length →
      ∃ i, i < st2.airstrips.length ∧ occ st2 i ≠ none) := by
  cases hd : drainAux ds (List.range st.airstrips.length) st k with
  | error e =>
    rw [runPass_eval_drain_err st units ds k e hd] at h
    exact Except.noConfusion h
  | ok pr =>
    rw [runPass_eval_drain_ok st units ds k pr hd] at h
    cases hl : landAux units pr.1 with
    | error e => rw [hl] at h; exact Except.noConfusion h
    | ok stL =>
      rw [hl] at h
      cases h
      obtain ⟨d1, d2, d3, d4, d5, d6, d7, d8⟩ :=
        drain_spec ds units (List.range st.airstrips.length) st k pr.1 pr.2 hg
          (by rw [hd])
      obtain ⟨l1, l2, l3, l4, l5, l6⟩ :=
        land_spec units units pr.1 st2 (fun b hb => hb) d1 hl
      refine ⟨l1, d2, ?_, ?_, ?_, ?_, ?_⟩
      · rw [l2]
        exact d3
      · intro heq j hj1 hj2
        apply d4 _ j hj1 hj2
        rw [← l2]
        exact heq
      · intro hex
        apply d5
        rcases hex with ⟨i, hi, hne⟩
        exact ⟨i, List.mem_range.mpr hi, hne⟩
      · exact l5.trans d7
      · intro hk hact hlen
        have hd6 := d6 hk
        rcases (loopActive_iff st2 units).mp hact with ⟨a, ha, hpa⟩
        by_cases hland : landedAt st2 a = true
        · have hmem := l1.2.2.2.1 a ha hland hpa
          rcases (mem_map_iff_getD _ _).mp hmem with ⟨j, hj, hjocc⟩
          exact ⟨j, hj, fun hc => by
            rw [show occ st2 j = some a from hjocc] at hc
            exact Option.noConfusion hc⟩
        · rcases l6 a ha with hl2 | hall
          · exact absurd hl2 hland
          · have h0 : 0 < st2.airstrips.length := by
              rw [l5, hd6]
              exact hlen
            exact ⟨0, h0, hall 0 h0⟩

/-! ### Unfolding lemmas for the fuelled loop -/

theorem runLoop_step (fuel : Nat) (st : AirportState) (units : List Nat)
    (ds : Nat → Nat) (k : Nat) (st1 : AirportState) (k1 : Nat)
    (hl : loopActive st units = true)
    (hp : runPass st units ds k = Except.ok (st1, k1)) :
    runLoop (fuel + 1) st units ds k = runLoop fuel st1 units ds k1 := by
  show (if loopActive st units = true then
      match runPass st units ds k with
      | Except.error e => Except.error e
      | Except.ok pr => runLoop fuel pr.1 units ds pr.2
    else Except.ok (some st)) = runLoop fuel st1 units ds k1
  rw [if_pos hl, hp]

theorem runLoop_step_err (fuel : Nat) (st : AirportState) (units : List Nat)
    (ds : Nat → Nat) (k : Nat) (e : Err)
    (hl : loopActive st units = true)
    (hp : runPass st units ds k = Except.error e) :
    runLoop (fuel + 1) st units ds k = Except.error e := by
  show (if loopActive st units = true then
      match runPass st units ds k with
      | Except.error e2 => Except.error e2
      | Except.ok pr => runLoop fuel pr.1 units ds pr.2
    else Except.ok (some st)) = Except.error e
  rw [if_pos hl, hp]

theorem runLoop_inactive (fuel : Nat) (st : AirportState) (units : List Nat)
    (ds : Nat → Nat) (k : Nat) (hl : loopActive st units = false) :
    runLoop fuel st units ds k = Except.ok (some st) := by
  have hl2 : ¬(loopActive st units = true) := by
    rw [hl]
    exact Bool.false_ne_true
  cases fuel with
  | zero =>
    show (if loopActive st units = true then Except.ok none
      else Except.ok (some st)) = Except.ok (some st)
    rw [if_neg hl2]
  | succ n =>
    show (if loopActive st units = true then
        match runPass st units ds k with
        | Except.error e => Except.error e
        | Except.ok pr => runLoop n pr.1 units ds pr.2
      else Except.ok (some st)) = Except.ok (some st)
    rw [if_neg hl2]

/-! ### Probabilistic termination of the control loop -/

theorem loop_terminates_aux (units : List Nat) (ds : Nat → Nat)
    (hz : ∀ j, ∃ i, j ≤ i ∧ ds i = 0) :
    ∀ (m : Nat) (b : Nat) (st : AirportState) (k : Nat),
      GoodState st units →
      1 ≤ st.airstrips.length →
      passMeasure st units ≤ m →
      (∃ d, d ≤ b ∧ ds (k + d) = 0) →
      ∃ fuel, runLoop fuel st units ds k ≠ Except.ok none := by
  intro m
  induction m with
  | zero =>
    intro b st k hg hlen hm _
    have h0 : loopActive st units = false :=
      measure_zero_inactive st units (Nat.le_zero.mp hm)
    exact ⟨0, by
      rw [runLoop_inactive 0 st units ds k h0]
      exact fun hc => Option.noConfusion (Except.ok.inj hc)⟩
  | succ m ihm =>
    intro b
    induction b using Nat.strong_induction_on with
    | _ b ihb =>
      intro st k hg hlen hm hzb
      by_cases hact : loopActive st units = true
      · cases hp : runPass st units ds k with
        | error e =>
          exact ⟨1, by
            rw [runLoop_step_err 0 st units ds k e hact hp]
            exact fun hc => Except.noConfusion hc⟩
        | ok pr =>
          obtain ⟨g1, g2, g3, g4, g5, g6, g7⟩ :=
            pass_spec st units ds k pr.1 pr.2 hg (by rw [hp])
          by_cases hdec : passMeasure pr.1 units < passMeasure st units
          · obtain ⟨i0, hi0, hz0⟩ := hz pr.2
            obtain ⟨fuel, hf⟩ := ihm (i0 - pr.2) pr.1 pr.2 g1
              (by rw [g6]; exact hlen) (by omega)
              ⟨i0 - pr.2, Nat.le_refl _, by
                rw [show pr.2 + (i0 - pr.2) = i0 from by omega]
                exact hz0⟩
            exact ⟨fuel + 1, by
              rw [runLoop_step fuel st units ds k pr.1 pr.2 hact (by rw [hp])]
              exact hf⟩
          · have hmeq : passMeasure pr.1 units = passMeasure st units :=
              Nat.le_antisymm g3 (Nat.le_of_not_lt hdec)
            have hnz : ∀ j, k ≤ j → j < pr.2 → ds j ≠ 0 := g4 hmeq
            obtain ⟨d, hdb, hd0⟩ := hzb
            rcases Nat.lt_or_ge k pr.2 with hkk | hkk
            · have hge : pr.2 ≤ k + d := by
                by_contra hcon
                exact hnz (k + d) (Nat.le_add_right k d) (Nat.lt_of_not_le hcon) hd0
              obtain ⟨fuel, hf⟩ := ihb ((k + d) - pr.2) (by omega) pr.1 pr.2 g1
                (by rw [g6]; exact hlen) (by omega)
                ⟨(k + d) - pr.2, Nat.le_refl _, by
                  rw [show pr.2 + ((k + d) - pr.2) = k + d from by omega]
                  exact hd0⟩
              exact ⟨fuel + 1, by
                rw [runLoop_step fuel st units ds k pr.1 pr.2 hact (by rw [hp])]
                exact hf⟩
            · have hk2 : pr.2 = k := Nat.le_antisymm hkk g2
              by_cases hact1 : loopActive pr.1 units = true
              · obtain ⟨i1, hi1, hocc1⟩ := g7 hk2 hact1 hlen
                cases hp2 : runPass pr.1 units ds pr.2 with
                | error e =>
                  refine ⟨1 + 1, ?_⟩
                  rw [runLoop_step 1 st units ds k pr.1 pr.2 hact (by rw [hp]),
                    runLoop_step_err 0 pr.1 units ds pr.2 e hact1 hp2]
                  exact fun hc => Except.noConfusion hc
                | ok pr2 =>
                  obtain ⟨q1, q2, q3, q4, q5, q6, q7⟩ :=
                    pass_spec pr.1 units ds pr.2 pr2.1 pr2.2 g1 (by rw [hp2])
                  have hklt2 : pr.2 < pr2.2 := q5 ⟨i1, hi1, hocc1⟩
                  by_cases hdec2 : passMeasure pr2.1 units < passMeasure pr.1 units
                  · obtain ⟨i0, hi0, hz0⟩ := hz pr2.2
                    obtain ⟨fuel, hf⟩ := ihm (i0 - pr2.2) pr2.1 pr2.2 q1
                      (by rw [q6, g6]; exact hlen) (by omega)
                      ⟨i0 - pr2.2, Nat.le_refl _, by
                        rw [show pr2.2 + (i0 - pr2.2) = i0 from by omega]
                        exact hz0⟩
                    refine ⟨fuel + 1 + 1, ?_⟩
                    rw [runLoop_step (fuel + 1) st units ds k pr.1 pr.2 hact (by rw [hp]),
                      runLoop_step fuel pr.1 units ds pr.2 pr2.1 pr2.2 hact1 (by rw [hp2])]
                    exact hf
                  · have hmeq2 : passMeasure pr2.1 units = passMeasure pr.1 units :=
                      Nat.le_antisymm q3 (Nat.le_of_not_lt hdec2)
                    have hnz2 : ∀ j, pr.2 ≤ j → j < pr2.2 → ds j ≠ 0 := q4 hmeq2
                    have hge : pr2.2 ≤ k + d := by
                      by_contra hcon
                      exact hnz2 (k + d) (by omega) (Nat.lt_of_not_le hcon) hd0
                    obtain ⟨fuel, hf⟩ := ihb ((k + d) - pr2.2) (by omega) pr2.1 pr2.2 q1
                      (by rw [q6, g6]; exact hlen) (by omega)
                      ⟨(k + d) - pr2.2, Nat.le_refl _, by
                        rw [show pr2.2 + ((k + d) - pr2.2) = k + d from by omega]
                        exact hd0⟩
                    refine ⟨fuel + 1 + 1, ?_⟩
                    rw [runLoop_step (fuel + 1) st units ds k pr.1 pr.2 hact (by rw [hp]),
                      runLoop_step fuel pr.1 units ds pr.2 pr2.1 pr2.2 hact1 (by rw [hp2])]
                    exact hf
              · refine ⟨1, ?_⟩
                rw [runLoop_step 0 st units ds k pr.1 pr.2 hact (by rw [hp]),
                  runLoop_inactive 0 pr.1 units ds pr.2 (by simpa using hact1)]
                exact fun hc => Option.noConfusion (Except.ok.inj hc)
      · exact ⟨0, by
          rw [runLoop_inactive 0 st units ds k (by simpa using hact)]
          exact fun hc => Option.noConfusion (Except.ok.inj hc)⟩

/-- C7: with zero slots and a unit not yet parked, `run_traffic_control`
never terminates: every pass returns the state unchanged and the loop guard
stays true after any number of passes.  With at least one slot, under the
control-loop invariants (which hold in the program's reachable states) and a
draw stream containing infinitely many zeros, which is an event of
probability 1 for the uniform draw of `randint(0, 9)`, the loop terminates:
after finitely many passes it either finishes normally or surfaces a Python
error, so it does not run forever. -/
theorem control_loop_termination :
    (∀ st units ds k, st.airstrips = [] → loopActive st units = true →
      runPass st units ds k = Except.ok (st, k) ∧
      ∀ fuel, runLoop fuel st units ds k = Except.ok none) ∧
    (∀ st units ds k, 1 ≤ st.airstrips.length → GoodState st units →
      (∀ j, ∃ i, j ≤ i ∧ ds i = 0) →
      ∃ fuel, runLoop fuel st units ds k ≠ Except.ok none) := by
  constructor
  · intro st units ds k hstrips hact
    exact ⟨runPass_no_strips st units ds k hstrips,
      fun fuel => runLoop_no_strips fuel st units ds k hstrips hact⟩
  · intro st units ds k hlen hg hz
    obtain ⟨i0, hi0, hz0⟩ := hz k
    exact loop_terminates_aux units ds hz (passMeasure st units) (i0 - k) st k hg
      hlen (Nat.le_refl _)
      ⟨i0 - k, Nat.le_refl _, by
        rw [show k + (i0 - k) = i0 from by omega]
        exact hz0⟩

theorem control_loop_termination_witness :
    runPass stW5 [0] (fun _ => 0) 0 = Except.ok (stW5, 0) ∧
    runLoop 7 stW5 [0] (fun _ => 0) 0 = Except.ok none ∧
    (∃ fuel, runLoop fuel stW6 [0] (fun _ => 0) 0 ≠ Except.ok none) :=
  ⟨(control_loop_termination.1 stW5 [0] (fun _ => 0) 0 rfl (by decide)).1,
    (control_loop_termination.1 stW5 [0] (fun _ => 0) 0 rfl (by decide)).2 7,
    control_loop_termination.2 stW6 [0] (fun _ => 0) 0 (by decide) (by decide)
      (fun j => ⟨j, Nat.le_refl j, rfl⟩)⟩

end Airport
